import Mathlib

/-!
EC2 environment provider of juju: bootstrap, instance and security-group lifecycle.

A shallow embedding of `src/environs/ec2/ec2.go`.

* Go functions returning `(T, error)` are functions into `Except GoError T`
  (`Except.error e` is the Go result `(nil, e)`, `Except.ok v` is `(v, nil)`);
  functions returning only `error` return `Option GoError` (`none` is `nil`).
* Every call the program makes to the outside (EC2, S3 state file, the
  logger, `time.Sleep`) is threaded through a `World`: the state of the
  outside plus the chronological trace of the calls issued so far.
* The outside is a parameter (`Backend`): each operation is an arbitrary
  function of the outside state, so a theorem quantified over the backend
  holds for every behaviour of the cloud.
-/

namespace Juju

/-! ## Go values used by the provider -/

/-- Go `error` values that are not nil: the two typed errors the code
type-asserts on (`*s3.Error`, `*ec2.Error`) and every other error type.
Each carries the text its `Error()` method returns. -/
inductive GoError where
  | s3 (StatusCode : Int) (text : String)
  | ec2 (Code : String) (text : String)
  | other (text : String)
  deriving DecidableEq, Repr

/-- The `Error()` method. -/
def GoError.Error : GoError → String
  | .s3 _ t => t
  | .ec2 _ t => t
  | .other t => t

/-- Rendering of an `error` by the `%v` verb. -/
def fmtErr : Option GoError → String
  | none => "<nil>"
  | some e => e.Error

/-- The call `fmt.Errorf(pre + "%v", err)`: the values are `*fmt` errors, hence
neither `*s3.Error` nor `*ec2.Error`. -/
def Errorf (pre : String) (arg : String) : GoError :=
  .other (pre ++ arg)

namespace ec2

/-- The fields of `ec2.Instance` the provider reads. -/
structure Instance where
  InstanceId : String
  DNSName : String
  deriving DecidableEq, Repr

/-- A security group handle `ec2.SecurityGroup`; the zero value has empty fields. -/
structure SecurityGroup where
  Id : String := ""
  Name : String := ""
  deriving DecidableEq, Repr

/-- An ingress rule `ec2.IPPerm`. -/
structure IPPerm where
  Protocol : String
  FromPort : Int
  ToPort : Int
  SourceIPs : List String
  deriving DecidableEq, Repr

/-- A listed group `ec2.SecurityGroupInfo`, which embeds a `SecurityGroup`. -/
structure SecurityGroupInfo where
  SecurityGroup : SecurityGroup
  Description : String
  IPPerms : List IPPerm
  deriving DecidableEq, Repr

/-- Promoted field of the embedded struct. -/
def SecurityGroupInfo.Name (g : SecurityGroupInfo) : String := g.SecurityGroup.Name

/-- One reservation of an instance listing. -/
structure Reservation where
  Instances : List Instance
  deriving DecidableEq, Repr

/-- An `*ec2.Filter`: attribute names with the accepted values; `none` is the nil filter. -/
abbrev Filter := Option (List (String × List String))

/-- Result of `ec2.NewFilter()`. -/
def NewFilter : Filter := some []

/-- Method `Filter.Add(name, values...)`. -/
def Filter.Add (f : Filter) (name : String) (values : List String) : Filter :=
  some (f.getD [] ++ [(name, values)])

/-- The request `ec2.RunInstances`. -/
structure RunInstances where
  ImageId : String
  MinCount : Int
  MaxCount : Int
  UserData : List Nat
  InstanceType : String
  SecurityGroups : List SecurityGroup
  deriving DecidableEq, Repr

end ec2

namespace state

/-- The control-plane connection info `state.Info`. -/
structure Info where
  Addrs : List String
  deriving DecidableEq, Repr

end state

/-- The persisted Bootstrap State record. -/
structure bootstrapState where
  ZookeeperInstances : List String
  deriving DecidableEq, Repr

/-- The fields of the provider configuration that the code reads. -/
structure providerConfig where
  region : String
  authorizedKeys : String
  authorizedKeysPath : String
  deriving DecidableEq, Repr

/-- The type `environ` (the two clients are the `Backend` below). -/
structure environ where
  name : String
  config : providerConfig
  deriving DecidableEq, Repr

/-- The literal built by `userData`. -/
structure machineConfig where
  provisioner : Bool
  zookeeper : Bool
  stateInfo : Option state.Info
  instanceIdAccessor : String
  providerType : String
  origin : String × String
  machineId : String
  authorizedKeys : String
  deriving DecidableEq, Repr

/-- The image description returned by `FindImageSpec`. -/
structure ImageSpec where
  ImageId : String
  deriving DecidableEq, Repr

/-! ## The outside world -/

/-- One call issued by the provider to the outside, with its arguments. The call
`p.do(f)` of the parallel executor is recorded as `parallelDo g`, where `g` is the value
that the group expression in the body of the closure `f` has at the moment of the call
(not necessarily the value it has when `f` runs). -/
inductive Event where
  | loadState
  | saveState (st : bootstrapState)
  | deleteState
  | FindImageSpec
  | authorizedKeys (keys path : String)
  | SecurityGroups (filter : ec2.Filter)
  | CreateSecurityGroup (name descr : String)
  | AuthorizeSecurityGroup (g : ec2.SecurityGroup) (perms : List ec2.IPPerm)
  | DeleteSecurityGroup (g : ec2.SecurityGroup)
  | RunInstances (req : ec2.RunInstances)
  | TerminateInstances (ids : List String)
  | Instances (filter : ec2.Filter)
  | Sleep (ns : Nat)
  | Printf (format : String) (arg : String)
  | parallelDo (g : ec2.SecurityGroup)
  deriving DecidableEq, Repr

/-- The collaborators of the provider, each an arbitrary (possibly failing)
function of the outside state `σ`: the S3 state file (`loadState`,
`saveState`, `deleteState`, methods of `environ` defined outside this file),
the image lookup, the key reader and the cloud-init renderer used by `userData`
(`cloudInit cfg` is `newCloudInit(cfg)` followed by `Render()`, both pure, the
error of either returned as it is), and the calls of the EC2 client `e.ec2`.
`schedule` is the Go scheduler: asked at a point of the calling goroutine, it names
the operations handed to the parallel executor (numbered from 0 in the order of the
`do` calls) that get to run at that point, in the order in which they run. -/
structure Backend (σ : Type) where
  loadState : σ → Except GoError bootstrapState × σ
  saveState : bootstrapState → σ → Option GoError × σ
  deleteState : σ → Option GoError × σ
  FindImageSpec : σ → Except GoError ImageSpec × σ
  authorizedKeys : String → String → σ → Except GoError String × σ
  cloudInit : machineConfig → Except GoError (List Nat)
  SecurityGroups : ec2.Filter → σ → Except GoError (List ec2.SecurityGroupInfo) × σ
  CreateSecurityGroup : String → String → σ → Except GoError ec2.SecurityGroup × σ
  AuthorizeSecurityGroup : ec2.SecurityGroup → List ec2.IPPerm → σ → Option GoError × σ
  DeleteSecurityGroup : ec2.SecurityGroup → σ → Option GoError × σ
  RunInstances : ec2.RunInstances → σ → Except GoError (List ec2.Instance) × σ
  TerminateInstances : List String → σ → Option GoError × σ
  Instances : ec2.Filter → σ → Except GoError (List ec2.Reservation) × σ
  schedule : σ → List Nat × σ

/-- State of the outside together with the calls issued so far, oldest first. -/
structure World (σ : Type) where
  st : σ
  trace : List Event

variable {σ : Type}

/-- Issue a call: record it, then let the outside answer. -/
def World.call {α : Type} (w : World σ) (ev : Event) (op : σ → α × σ) : α × World σ :=
  ((op w.st).1, ⟨(op w.st).2, w.trace ++ [ev]⟩)

/-- A call without an answer (`log.Printf`, `time.Sleep`). -/
def World.emit (w : World σ) (ev : Event) : World σ :=
  ⟨w.st, w.trace ++ [ev]⟩

/-! ## The provider -/

/-- The constant `zkPort`. -/
def zkPort : Nat := 2181

/-- The variable `zkPortSuffix`, the value of `fmt.Sprintf(":%d", zkPort)`. -/
def zkPortSuffix : String := ":" ++ toString zkPort

/-- Method `Id` of the instance wrapper. -/
def ec2.Instance.Id (inst : ec2.Instance) : String := inst.InstanceId

/-- Function `zkAddr`. -/
def zkAddr (inst : ec2.Instance) : String := inst.DNSName ++ zkPortSuffix

/-- Method `groupName`. -/
def environ.groupName (e : environ) : String := "juju-" ++ e.name

/-- Method `machineGroupName`: `fmt.Sprintf("%s-%d", e.groupName(), machineId)`. -/
def environ.machineGroupName (e : environ) (machineId : Int) : String :=
  e.groupName ++ "-" ++ toString machineId

/-- Function `attempt`, the loop `for i := 0; i < 20; i++` unrolled on the number
of iterations left; `err` is the named result. Each iteration calls `f` twice:
once for `err = f()` and once more in `f().(*ec2.Error)`. -/
def attemptLoop (code : String) (f : World σ → Option GoError × World σ) :
    Nat → Nat → Option GoError → World σ → Option GoError × World σ
  | 0, _, err, w => (err, w.emit (.Printf "number of attempts exceeded (err %v)" (fmtErr err)))
  | left + 1, i, _, w =>
    let w1 := w.emit (.Printf "attempt %d" (toString i))
    let r1 := f w1
    let w2 := r1.2.emit (.Printf "error: %v" (fmtErr r1.1))
    let r2 := f w2
    match r2.1 with
    | some (.ec2 c _) =>
      if c ≠ code then (r1.1, r2.2)
      else attemptLoop code f left (i + 1) r1.1 (r2.2.emit (.Sleep 5000000000))
    | _ => (r1.1, r2.2)

/-- Function `attempt`. -/
def attempt (code : String) (f : World σ → Option GoError × World σ) (w : World σ) :
    Option GoError × World σ :=
  attemptLoop code f 20 0 none w

/-- Method `StopInstances`. -/
def StopInstances (b : Backend σ) (insts : List ec2.Instance) (w : World σ) :
    Option GoError × World σ :=
  if insts.length = 0 then (none, w)
  else
    let names := insts.map (fun inst => inst.InstanceId)
    w.call (.TerminateInstances names) (b.TerminateInstances names)

/-- The filter built by `Instances`. -/
def environ.liveFilter (e : environ) : ec2.Filter :=
  (ec2.NewFilter.Add "instance-state-name" ["pending", "running"]).Add "group-name" [e.groupName]

/-- Method `Instances`. -/
def Instances (b : Backend σ) (e : environ) (w : World σ) :
    Except GoError (List ec2.Instance) × World σ :=
  let filter := e.liveFilter
  match w.call (.Instances filter) (b.Instances filter) with
  | (.error err, w1) => (.error err, w1)
  | (.ok resp, w1) => (.ok (resp.flatMap (fun r => r.Instances)), w1)

/-- Method `userData`. -/
def userData (b : Backend σ) (e : environ) (machineId : Int) (info : Option state.Info)
    (master : Bool) (w : World σ) : Except GoError (List Nat) × World σ :=
  match w.call (.authorizedKeys e.config.authorizedKeys e.config.authorizedKeysPath)
      (b.authorizedKeys e.config.authorizedKeys e.config.authorizedKeysPath) with
  | (.error err, w1) => (.error (Errorf "cannot get ssh authorized keys: " err.Error), w1)
  | (.ok keys, w1) =>
    let cfg : machineConfig :=
      { provisioner := master
        zookeeper := master
        stateInfo := info
        instanceIdAccessor := "$(curl http://169.254.169.254/1.0/meta-data/instance-id)"
        providerType := "ec2"
        origin := ("originBranch", "lp:jujubranch")
        machineId := toString machineId
        authorizedKeys := keys }
    (b.cloudInit cfg, w1)

/-- The two ingress rules authorized on a new environment group. -/
def jujuGroupPerms : List ec2.IPPerm :=
  [ { Protocol := "tcp", FromPort := zkPort, ToPort := zkPort, SourceIPs := ["0.0.0.0/0"] },
    { Protocol := "tcp", FromPort := 22, ToPort := 22, SourceIPs := ["0.0.0.0/0"] } ]

/-- Rendering of a security group by `%v`. -/
def fmtGroup (g : ec2.SecurityGroup) : String := "\x7b" ++ g.Id ++ " " ++ g.Name ++ "\x7d"

/-- The loop of `setUpGroups` over the listed groups (a `switch` on `g.Name`). -/
def pickGroups (groups : List ec2.SecurityGroupInfo)
    (init : ec2.SecurityGroup × ec2.SecurityGroup) : ec2.SecurityGroup × ec2.SecurityGroup :=
  groups.foldl (fun acc g =>
    if g.Name = acc.1.Name then (g.SecurityGroup, acc.2)
    else if g.Name = acc.2.Name then (acc.1, g.SecurityGroup)
    else acc) init

/-- The filter built by `setUpGroups`. -/
def environ.groupsFilter (e : environ) (machineId : Int) : ec2.Filter :=
  ec2.NewFilter.Add "group-name" [e.groupName, e.machineGroupName machineId]

/-- The description `setUpGroups` gives to a machine group. -/
def environ.machineDescr (e : environ) (machineId : Int) : String :=
  "juju group for " ++ e.name ++ " machine " ++ toString machineId

/-- Second half of `setUpGroups`: replace the machine group and return both groups. -/
def setUpMachineGroup (b : Backend σ) (e : environ) (machineId : Int)
    (jujuGroup jujuMachineGroup : ec2.SecurityGroup) (w : World σ) :
    Except GoError (List ec2.SecurityGroup) × World σ :=
  let descr := e.machineDescr machineId
  let create := fun (w1 : World σ) =>
    match w1.call (.CreateSecurityGroup jujuMachineGroup.Name descr)
        (b.CreateSecurityGroup jujuMachineGroup.Name descr) with
    | (.error err, w2) =>
      (Except.error (Errorf ("cannot create machine group " ++ jujuMachineGroup.Name.quote ++ ": ")
        err.Error), w2)
    | (.ok r, w2) => (Except.ok [jujuGroup, r], w2)
  if jujuMachineGroup.Id ≠ "" then
    match w.call (.DeleteSecurityGroup jujuMachineGroup) (b.DeleteSecurityGroup jujuMachineGroup) with
    | (some err, w1) =>
      (.error (Errorf ("cannot delete old security group " ++ jujuMachineGroup.Name.quote ++ ": ")
        err.Error), w1)
    | (none, w1) => create w1
  else create w

/-- Method `setUpGroups`. -/
def setUpGroups (b : Backend σ) (e : environ) (machineId : Int) (w : World σ) :
    Except GoError (List ec2.SecurityGroup) × World σ :=
  let f := e.groupsFilter machineId
  match w.call (.SecurityGroups f) (b.SecurityGroups f) with
  | (.error err, w1) => (.error (Errorf "cannot get security groups: " err.Error), w1)
  | (.ok groups, w1) =>
    let picked := pickGroups groups
      ({ Name := e.groupName }, { Name := e.machineGroupName machineId })
    if picked.1.Id = "" then
      let w2 := w1.emit (.Printf "creating security group %q" picked.1.Name.quote)
      match w2.call (.CreateSecurityGroup picked.1.Name ("juju group for " ++ e.name))
          (b.CreateSecurityGroup picked.1.Name ("juju group for " ++ e.name)) with
      | (.error err, w3) =>
        (.error (Errorf "cannot create juju security group: " err.Error), w3)
      | (.ok jujuGroup, w3) =>
        let w4 := w3.emit (.Printf "authorizing security group %v" (fmtGroup jujuGroup))
        match attempt "InvalidGroup.NotFound" (fun v =>
            v.call (.AuthorizeSecurityGroup jujuGroup jujuGroupPerms)
              (b.AuthorizeSecurityGroup jujuGroup jujuGroupPerms)) w4 with
        | (some err, w5) => (.error (Errorf "cannot authorize security group: " err.Error), w5)
        | (none, w5) => setUpMachineGroup b e machineId jujuGroup picked.2 w5
    else setUpMachineGroup b e machineId picked.1 picked.2 w1

/-- Method `startInstance`. -/
def startInstance (b : Backend σ) (e : environ) (machineId : Int) (info : Option state.Info)
    (master : Bool) (w : World σ) : Except GoError ec2.Instance × World σ :=
  match w.call .FindImageSpec b.FindImageSpec with
  | (.error err, w1) => (.error (Errorf "cannot find image: " err.Error), w1)
  | (.ok image, w1) =>
    match userData b e machineId info master w1 with
    | (.error err, w2) => (.error err, w2)
    | (.ok data, w2) =>
      match setUpGroups b e machineId w2 with
      | (.error err, w3) => (.error (Errorf "cannot set up groups: " err.Error), w3)
      | (.ok groups, w3) =>
        let req : ec2.RunInstances :=
          { ImageId := image.ImageId
            MinCount := 1
            MaxCount := 1
            UserData := data
            InstanceType := "m1.small"
            SecurityGroups := groups }
        match w3.call (.RunInstances req) (b.RunInstances req) with
        | (.error err, w4) => (.error (Errorf "cannot run instances: " err.Error), w4)
        | (.ok instances, w4) =>
          match instances with
          | [inst] => (.ok inst, w4)
          | _ => (.error (Errorf "expected 1 started instance, got " (toString instances.length)), w4)

/-- Method `StartInstance`. -/
def StartInstance (b : Backend σ) (e : environ) (machineId : Int) (info : Option state.Info)
    (w : World σ) : Except GoError ec2.Instance × World σ :=
  startInstance b e machineId info false w

/-- The address-polling loop of `Bootstrap` (`for i := 0; i < 20; i++`), unrolled
on the number of iterations left. The result is the instance last adopted. -/
def awaitDNS (b : Backend σ) (e : environ) :
    Nat → ec2.Instance → World σ → Except GoError ec2.Instance × World σ
  | 0, inst, w => (.ok inst, w)
  | left + 1, inst, w =>
    if inst.DNSName ≠ "" then (.ok inst, w)
    else
      match Instances b e (w.emit (.Sleep 5000000000)) with
      | (.error err, w1) => (.error err, w1)
      | (.ok insts, w1) =>
        match insts.find? (fun x => x.Id = inst.Id) with
        | none =>
          (.error (Errorf "cannot find just-started bootstrap instance " inst.Id.quote), w1)
        | some x => awaitDNS b e left x w1

/-- The condition `s3err != nil && s3err.StatusCode != 404` of `Bootstrap`, where
`s3err, _ := err.(*s3.Error)` is nil for an error of any other type. -/
def fatalRead : GoError → Bool
  | .s3 StatusCode _ => StatusCode ≠ 404
  | _ => false

/-- Method `Bootstrap`. -/
def Bootstrap (b : Backend σ) (e : environ) (w : World σ) :
    Except GoError state.Info × World σ :=
  match w.call .loadState b.loadState with
  | (.ok _, w1) => (.error (.other "environment is already bootstrapped"), w1)
  | (.error err, w1) =>
    if fatalRead err then (.error err, w1)
    else
      match startInstance b e 0 none true w1 with
      | (.error err2, w2) => (.error (Errorf "cannot start bootstrap instance: " err2.Error), w2)
      | (.ok inst, w2) =>
        match w2.call (.saveState { ZookeeperInstances := [inst.Id] })
            (b.saveState { ZookeeperInstances := [inst.Id] }) with
        | (some err3, w3) => (.error err3, (StopInstances b [inst] w3).2)
        | (none, w3) =>
          match awaitDNS b e 20 inst w3 with
          | (.error err4, w4) => (.error err4, w4)
          | (.ok inst2, w4) =>
            if inst2.DNSName = "" then
              (.error (.other "timed out trying to get bootstrap instance DNS address"), w4)
            else (.ok { Addrs := [zkAddr inst2] }, w4)

/-- Method `delGroup`. -/
def delGroup (b : Backend σ) (g : ec2.SecurityGroup) (w : World σ) : Option GoError × World σ :=
  match attempt "InvalidGroup.InUse" (fun v =>
      v.call (.DeleteSecurityGroup g) (b.DeleteSecurityGroup g)) w with
  | (some err, w1) => (some (Errorf "cannot delete juju security group: " err.Error), w1)
  | (none, w1) => (none, w1)

/-- Modelled from the spec: the bounded parallel executor (`newParallel`, its
`do` and `wait`) is not in this file. `do` hands an operation over for background
execution and does not run it; `wait` returns when every operation handed over has
run, with nil or the first failure. An operation is a closure: what it does depends on
the value `τ` that the variables it captures have at the moment it runs. The executor
state holds the operations handed over, oldest first, the numbers of those that have
run, and the first failure. When an operation runs is up to the scheduler of the
backend; an operation runs in one piece (the calls of two operations do not interleave). -/
structure parallel (σ τ : Type) where
  max : Nat
  ops : List (τ → World σ → Option GoError × World σ)
  ran : List Nat
  err : Option GoError

variable {τ : Type}

/-- Modelled from the spec: `newParallel(max)`. -/
def newParallel (max : Nat) : parallel σ τ :=
  { max := max, ops := [], ran := [], err := none }

/-- Modelled from the spec: operation number `i` runs now, if it was handed over and has
not run yet; it sees the captured variables as they are now. -/
def parallel.runOne (p : parallel σ τ) (vars : τ) (i : Nat) (w : World σ) :
    parallel σ τ × World σ :=
  if i ∈ p.ran then (p, w)
  else
    match p.ops[i]? with
    | none => (p, w)
    | some op =>
      ({ p with
          ran := p.ran ++ [i]
          err := match p.err with
            | some err => some err
            | none => (op vars w).1 },
        (op vars w).2)

/-- Modelled from the spec: the listed operations run now, one after the other. -/
def parallel.runAll (p : parallel σ τ) (vars : τ) (ids : List Nat) (w : World σ) :
    parallel σ τ × World σ :=
  ids.foldl (fun acc i => acc.1.runOne vars i acc.2) (p, w)

/-- Modelled from the spec: the operations handed over that have not run yet. -/
def parallel.pending (p : parallel σ τ) : List Nat :=
  (List.range p.ops.length).filter (fun i => i ∉ p.ran)

/-- Modelled from the spec: a point of the calling goroutine at which operations handed
over earlier may run: those the scheduler names. -/
def parallel.yield (b : Backend σ) (p : parallel σ τ) (vars : τ) (w : World σ) :
    parallel σ τ × World σ :=
  p.runAll vars (b.schedule w.st).1 ⟨(b.schedule w.st).2, w.trace⟩

/-- Modelled from the spec: `p.do(op)`. The operation is handed over, not run. The caller
blocks only while `max` operations are in flight: then the oldest ones run first. -/
def parallel.doFn (p : parallel σ τ) (op : τ → World σ → Option GoError × World σ) (vars : τ)
    (w : World σ) : parallel σ τ × World σ :=
  ({ (p.runAll vars (p.pending.take (p.pending.length + 1 - p.max)) w).1 with
      ops := (p.runAll vars (p.pending.take (p.pending.length + 1 - p.max)) w).1.ops ++ [op] },
    (p.runAll vars (p.pending.take (p.pending.length + 1 - p.max)) w).2)

/-- Modelled from the spec: `p.wait()`. The operations still pending run, first those the
scheduler names, then the others; the result is nil or the first failure. -/
def parallel.wait (b : Backend σ) (p : parallel σ τ) (vars : τ) (w : World σ) :
    Option GoError × World σ :=
  (((p.yield b vars w).1.runAll vars (p.yield b vars w).1.pending (p.yield b vars w).2).1.err,
    ((p.yield b vars w).1.runAll vars (p.yield b vars w).1.pending (p.yield b vars w).2).2)

namespace strings

/-- The Go function `strings.HasPrefix(s, pre)`. -/
def HasPrefix (s pre : String) : Bool := pre.data.isPrefixOf s.data

end strings

/-- The zero value of `ec2.SecurityGroupInfo`. -/
def ec2.SecurityGroupInfo.zero : ec2.SecurityGroupInfo :=
  { SecurityGroup := {}, Description := "", IPPerms := [] }

/-- Method `deleteSecurityGroups`. The closures handed to `p.do` in the loop capture the
loop variable `g`, one variable for the whole loop (Go before 1.22): a closure deletes
the group that `g` holds when the closure runs, which is the group of the iteration
that handed it over or of a later one. The first closure captures no variable that
changes. When the listing fails the method returns without `p.wait()`; what is still
pending then runs after the return and is not part of the result. -/
def deleteSecurityGroups (b : Backend σ) (e : environ) (w : World σ) :
    Option GoError × World σ :=
  let p0 : parallel σ ec2.SecurityGroupInfo := newParallel 20
  let s1 := p0.doFn (fun _ v => delGroup b { Name := e.groupName } v) ec2.SecurityGroupInfo.zero
    (w.emit (.parallelDo { Name := e.groupName }))
  let y1 := s1.1.yield b ec2.SecurityGroupInfo.zero s1.2
  match y1.2.call (.SecurityGroups none) (b.SecurityGroups none) with
  | (.error err, w2) => (some (Errorf "cannot list security groups: " err.Error), w2)
  | (.ok groups, w2) =>
    let pre := e.groupName ++ "-"
    let s2 := groups.foldl (fun (acc : parallel σ ec2.SecurityGroupInfo × World σ) g =>
      if strings.HasPrefix g.Name pre then
        (acc.1.doFn (fun cur v => delGroup b cur.SecurityGroup v) g
          (acc.2.emit (.parallelDo g.SecurityGroup))).1.yield b g
          (acc.1.doFn (fun cur v => delGroup b cur.SecurityGroup v) g
            (acc.2.emit (.parallelDo g.SecurityGroup))).2
      else acc.1.yield b g acc.2) (y1.1, w2)
    s2.1.wait b (groups.getLastD ec2.SecurityGroupInfo.zero) s2.2

/-- Method `Destroy`. -/
def Destroy (b : Backend σ) (e : environ) (w : World σ) : Option GoError × World σ :=
  match Instances b e w with
  | (.error err, w1) => (some err, w1)
  | (.ok insts, w1) =>
    match StopInstances b insts w1 with
    | (some err, w2) => (some err, w2)
    | (none, w2) =>
      match w2.call .deleteState b.deleteState with
      | (some err, w3) => (some err, w3)
      | (none, w3) =>
        match deleteSecurityGroups b e w3 with
        | (some err, w4) => (some err, w4)
        | (none, w4) => (none, w4)

/-! ## A reference cloud

A concrete backend: security groups live in a store in which a listing
immediately reflects creations and deletions; the answers of the remaining
services are scripted, and so is the scheduler (one list of operation numbers per
point; with no list left, pending operations run at `wait`). -/

/-- State of the reference cloud. -/
structure Cloud where
  groups : List ec2.SecurityGroupInfo
  nextId : Nat
  stateFile : Except GoError bootstrapState
  saveErr : Option GoError
  deleteErr : Option GoError
  runResult : Except GoError (List ec2.Instance)
  terminateErr : Option GoError
  listings : List (Except GoError (List ec2.Reservation))
  schedule : List (List Nat)

/-- Identifier the store gives to its `n`-th group: injective and never empty. -/
def Cloud.freshId (n : Nat) : String := "sg-" ++ String.mk (List.replicate n 'i')

/-- Whether a listed group passes a filter: only `group-name` constrains groups. -/
def Cloud.passes (f : ec2.Filter) (g : ec2.SecurityGroupInfo) : Bool :=
  match f with
  | none => true
  | some conds => conds.all (fun c => c.1 ≠ "group-name" || c.2.contains g.Name)

/-- Whether a handle designates a stored group: by id when it has one, else by name. -/
def Cloud.designates (h : ec2.SecurityGroup) (g : ec2.SecurityGroupInfo) : Bool :=
  if h.Id ≠ "" then g.SecurityGroup.Id = h.Id else g.Name = h.Name

/-- Listing of the stored groups. -/
def Cloud.SecurityGroups (f : ec2.Filter) (c : Cloud) :
    Except GoError (List ec2.SecurityGroupInfo) × Cloud :=
  (.ok (c.groups.filter (Cloud.passes f)), c)

/-- Creation: refused for a name already present, else a group with a fresh id and no rule. -/
def Cloud.CreateSecurityGroup (name descr : String) (c : Cloud) :
    Except GoError ec2.SecurityGroup × Cloud :=
  if c.groups.any (fun g => g.Name = name) then
    (.error (.ec2 "InvalidGroup.Duplicate" "group already exists"), c)
  else
    (.ok { Id := Cloud.freshId c.nextId, Name := name },
      { c with
        groups := c.groups ++
          [{ SecurityGroup := { Id := Cloud.freshId c.nextId, Name := name }
             Description := descr
             IPPerms := [] }]
        nextId := c.nextId + 1 })

/-- Authorization: the group must exist and hold none of the rules yet. -/
def Cloud.AuthorizeSecurityGroup (h : ec2.SecurityGroup) (perms : List ec2.IPPerm) (c : Cloud) :
    Option GoError × Cloud :=
  match c.groups.find? (Cloud.designates h) with
  | none => (some (.ec2 "InvalidGroup.NotFound" "no such group"), c)
  | some g =>
    if perms.any (fun p => g.IPPerms.contains p) then
      (some (.ec2 "InvalidPermission.Duplicate" "rule already exists"), c)
    else
      (none, { c with groups := c.groups.map (fun x =>
        if Cloud.designates h x then { x with IPPerms := x.IPPerms ++ perms } else x) })

/-- Deletion: the group must exist; it leaves the store at once. -/
def Cloud.DeleteSecurityGroup (h : ec2.SecurityGroup) (c : Cloud) : Option GoError × Cloud :=
  if c.groups.any (Cloud.designates h) then
    (none, { c with groups := c.groups.filter (fun g => !Cloud.designates h g) })
  else (some (.ec2 "InvalidGroup.NotFound" "no such group"), c)

/-- Instance listing: the scripted answers are consumed one per call; no answer left is an
empty listing. -/
def Cloud.Instances (_ : ec2.Filter) (c : Cloud) : Except GoError (List ec2.Reservation) × Cloud :=
  match c.listings with
  | [] => (.ok [], c)
  | r :: rest => (r, { c with listings := rest })

/-- The reference cloud as a backend. -/
def cloud : Backend Cloud where
  loadState := fun c => (c.stateFile, c)
  saveState := fun st c =>
    match c.saveErr with
    | some err => (some err, c)
    | none => (none, { c with stateFile := .ok st })
  deleteState := fun c =>
    match c.deleteErr with
    | some err => (some err, c)
    | none => (none, { c with stateFile := .error (.s3 404 "The specified key does not exist.") })
  FindImageSpec := fun c => (.ok { ImageId := "ami-00000001" }, c)
  authorizedKeys := fun keys _ c => (.ok keys, c)
  cloudInit := fun _ => .ok []
  SecurityGroups := Cloud.SecurityGroups
  CreateSecurityGroup := Cloud.CreateSecurityGroup
  AuthorizeSecurityGroup := Cloud.AuthorizeSecurityGroup
  DeleteSecurityGroup := Cloud.DeleteSecurityGroup
  RunInstances := fun _ c => (c.runResult, c)
  TerminateInstances := fun _ c => (c.terminateErr, c)
  Instances := Cloud.Instances
  schedule := fun c =>
    match c.schedule with
    | [] => ([], c)
    | ids :: rest => (ids, { c with schedule := rest })

/-- An empty reference cloud with no Bootstrap State: every scripted service succeeds,
a started instance gets id `i-1` and has no address yet. -/
def Cloud.empty : Cloud where
  groups := []
  nextId := 1
  stateFile := .error (.s3 404 "The specified key does not exist.")
  saveErr := none
  deleteErr := none
  runResult := .ok [{ InstanceId := "i-1", DNSName := "" }]
  terminateErr := none
  listings := []
  schedule := []

/-- A cloud whose state file cannot be written and which refuses to terminate instances. -/
def Cloud.saveFails : Cloud :=
  { Cloud.empty with
    saveErr := some (.s3 500 "InternalError"),
    terminateErr := some (.ec2 "Unavailable" "try later") }

/-- A cloud whose state file cannot be read for a reason other than an S3 error; the
started instance shows its address at the first listing. -/
def Cloud.unreadable : Cloud :=
  { Cloud.empty with
    stateFile := .error (.other "dial tcp: connection refused"),
    listings := [.ok [⟨[⟨"i-1", "10.0.0.5"⟩]⟩]] }

/-- A cloud whose state file cannot be read because S3 answers with status 500. -/
def Cloud.unavailable : Cloud :=
  { Cloud.empty with stateFile := .error (.s3 500 "InternalError") }

/-- A cloud in which the started instance shows its address at the first listing. -/
def Cloud.addressed : Cloud :=
  { Cloud.empty with listings := [.ok [⟨[⟨"i-1", "10.0.0.5"⟩]⟩]] }

/-- A cloud in which the started instance never shows an address. -/
def Cloud.silent : Cloud :=
  { Cloud.empty with listings := List.replicate 20 (.ok [⟨[⟨"i-1", ""⟩]⟩]) }

/-- A cloud with one live instance that it refuses to terminate. -/
def Cloud.stopFails : Cloud :=
  { Cloud.empty with
    stateFile := .ok ⟨["i-1"]⟩,
    listings := [.ok [⟨[⟨"i-1", "10.0.0.5"⟩]⟩]],
    terminateErr := some (.ec2 "Unavailable" "try later") }

/-- A cloud that also holds the groups of the environment named `test1-eu`. -/
def Cloud.shared : Cloud :=
  { Cloud.empty with
    groups :=
      [ { SecurityGroup := { Id := "sg-a", Name := "juju-test1" }, Description := "", IPPerms := [] },
        { SecurityGroup := { Id := "sg-b", Name := "juju-test1-eu" }, Description := "",
          IPPerms := [] },
        { SecurityGroup := { Id := "sg-c", Name := "juju-test1-eu-0" }, Description := "",
          IPPerms := [] } ] }

/-- A cloud that holds a machine group of `test1` and the group of environment `test2`,
listed in this order; nothing runs in the background before `wait`. -/
def Cloud.mixed : Cloud :=
  { Cloud.empty with
    groups :=
      [ { SecurityGroup := { Id := "sg-m", Name := "juju-test1-0" }, Description := "",
          IPPerms := [] },
        { SecurityGroup := { Id := "sg-t", Name := "juju-test2" }, Description := "",
          IPPerms := [] } ] }

/-- A cloud that holds the group of machine -1 of environment `test1`. -/
def Cloud.negative : Cloud :=
  { Cloud.empty with
    groups :=
      [ { SecurityGroup := { Id := "sg-n", Name := "juju-test1--1" }, Description := "",
          IPPerms := [] } ] }

/-- An environment whose name is that of `test1` followed by a dash and a machine id. -/
def test1m0 : environ where
  name := "test1-0"
  config := { region := "us-east-1", authorizedKeys := "ssh-rsa AAAA", authorizedKeysPath := "" }

/-- An environment whose name is that of `test1` followed by a dash. -/
def test1dash : environ where
  name := "test1-"
  config := { region := "us-east-1", authorizedKeys := "ssh-rsa AAAA", authorizedKeysPath := "" }

/-- A second environment, whose name extends that of `test1` after a dash. -/
def test1eu : environ where
  name := "test1-eu"
  config := { region := "eu-west-1", authorizedKeys := "ssh-rsa AAAA", authorizedKeysPath := "" }

/-- A second environment whose name is unrelated to that of `test1`. -/
def test2 : environ where
  name := "test2"
  config := { region := "us-east-1", authorizedKeys := "ssh-rsa AAAA", authorizedKeysPath := "" }

/-- The environment used in the examples. -/
def test1 : environ where
  name := "test1"
  config := { region := "us-east-1", authorizedKeys := "ssh-rsa AAAA", authorizedKeysPath := "" }

/-- The events by which an iteration of `attempt` shows in the trace: its
`attempt %d` log line and its sleep. -/
def Event.isLoopMark : Event → Bool
  | .Printf format _ => format = "attempt %d"
  | .Sleep _ => true
  | _ => false

/-- The world after one round of the loop of `attempt` that ends in a retry: the log
line of iteration `i`, the invocation of `f` whose error is kept, the log line of that
error, the invocation of `f` that is classified, and the sleep. -/
def attemptRound (f : World σ → Option GoError × World σ) (i : Nat) (w : World σ) : World σ :=
  ((f ((f (w.emit (.Printf "attempt %d" (toString i)))).2.emit
    (.Printf "error: %v" (fmtErr (f (w.emit (.Printf "attempt %d" (toString i)))).1)))).2).emit
      (.Sleep 5000000000)

/-- An operation that always succeeds and counts its invocations in the outside state. -/
def tick (w : World Nat) : Option GoError × World Nat :=
  (none, ⟨w.st + 1, w.trace⟩)

/-- An operation that counts its invocations and succeeds at every odd one (the first,
the third, ...), failing with the EC2 error code `InvalidGroup.InUse` at the others. -/
def alternating (w : World Nat) : Option GoError × World Nat :=
  (if w.st % 2 = 0 then none else some (.ec2 "InvalidGroup.InUse" "group is in use"),
    ⟨w.st + 1, w.trace⟩)

/-- An operation that always fails with the EC2 error code `InvalidGroup.InUse`. -/
def busy (w : World Nat) : Option GoError × World Nat :=
  (some (.ec2 "InvalidGroup.InUse" "group is in use"), ⟨w.st + 1, w.trace⟩)

/-- Every call in the trace of `w2` was already in the trace of `w` or satisfies `P`. -/
def Grows (P : Event → Prop) (w w2 : World σ) : Prop :=
  ∀ ev, ev ∈ w2.trace → ev ∈ w.trace ∨ P ev

/-- A `p.do` call is admissible for environment `e` when the group it is recorded with
bears the name of the environment group of `e` or a name that starts with that name and
a dash. -/
def Targets (e : environ) (ev : Event) : Prop :=
  ∀ g, ev = .parallelDo g →
    g.Name = e.groupName ∨ strings.HasPrefix g.Name (e.groupName ++ "-") = true

/-- The handles of the groups in the store. -/
def Cloud.handles (c : Cloud) : List ec2.SecurityGroup :=
  c.groups.map (fun g => g.SecurityGroup)

/-- A well-formed store: group names are unique, ids are unique, and every id is
non-empty and differs from the ids the store has yet to issue. -/
structure Cloud.WF (c : Cloud) : Prop where
  names : (c.handles.map (fun h => h.Name)).Nodup
  ids : (c.handles.map (fun h => h.Id)).Nodup
  issued : ∀ h ∈ c.handles, h.Id ≠ "" ∧ ∀ k, c.nextId ≤ k → h.Id ≠ Cloud.freshId k

/-! ## Theorems -/

/-- C1: when the Bootstrap State read succeeds, `Bootstrap` returns no info and the error
"environment is already bootstrapped", and the only call it has issued is that read: the
outside is as the read left it and the trace has grown by `loadState` alone (no
security-group call, no `RunInstances`, no `saveState`). -/
theorem Bootstrap_already_bootstrapped (b : Backend σ) (e : environ) (w : World σ)
    (st : bootstrapState) (h : (b.loadState w.st).1 = .ok st) :
    Bootstrap b e w = (.error (.other "environment is already bootstrapped"),
      ⟨(b.loadState w.st).2, w.trace ++ [.loadState]⟩) := by
  simp [Bootstrap, World.call, h]

theorem Bootstrap_already_bootstrapped_witness :
    Bootstrap cloud test1 ⟨{ Cloud.empty with stateFile := .ok ⟨["i-1"]⟩ }, []⟩ =
      (.error (.other "environment is already bootstrapped"),
        ⟨{ Cloud.empty with stateFile := .ok ⟨["i-1"]⟩ }, [] ++ [.loadState]⟩) :=
  Bootstrap_already_bootstrapped cloud test1 _ ⟨["i-1"]⟩ rfl

/-- C8: `StopInstances` on the empty list returns nil and leaves the world untouched (no
call at all); on a non-empty list it issues exactly one call, `TerminateInstances`, whose
identifier list has the length and the order of the input and holds each `InstanceId`,
and it returns the error of that call unchanged. -/
theorem StopInstances_spec (b : Backend σ) (insts : List ec2.Instance) (w : World σ) :
    (insts = [] → StopInstances b insts w = (none, w)) ∧
    (insts ≠ [] → ∃ ids : List String,
      ids.length = insts.length ∧
      (∀ (i : Nat) (h1 : i < ids.length) (h2 : i < insts.length),
        ids[i] = (insts[i]).InstanceId) ∧
      StopInstances b insts w =
        ((b.TerminateInstances ids w.st).1,
          ⟨(b.TerminateInstances ids w.st).2, w.trace ++ [.TerminateInstances ids]⟩)) := by
  constructor
  · intro h
    simp [StopInstances, h]
  · intro h
    refine ⟨insts.map (fun inst => inst.InstanceId), by simp, ?_, ?_⟩
    · intro i h1 h2
      simp
    · have hlen : insts.length ≠ 0 := by
        intro h0
        exact h (List.length_eq_zero.mp h0)
      simp [StopInstances, World.call, hlen]

theorem StopInstances_spec_witness :
    StopInstances cloud [] ⟨Cloud.empty, []⟩ = (none, ⟨Cloud.empty, []⟩) ∧
    ∃ ids : List String,
      ids.length = [(⟨"i-1", ""⟩ : ec2.Instance), ⟨"i-2", "10.0.0.6"⟩].length ∧
      (∀ (i : Nat) (h1 : i < ids.length)
        (h2 : i < [(⟨"i-1", ""⟩ : ec2.Instance), ⟨"i-2", "10.0.0.6"⟩].length),
        ids[i] = ([(⟨"i-1", ""⟩ : ec2.Instance), ⟨"i-2", "10.0.0.6"⟩][i]).InstanceId) ∧
      StopInstances cloud [⟨"i-1", ""⟩, ⟨"i-2", "10.0.0.6"⟩] ⟨Cloud.empty, []⟩ =
        ((cloud.TerminateInstances ids Cloud.empty).1,
          ⟨(cloud.TerminateInstances ids Cloud.empty).2, [] ++ [.TerminateInstances ids]⟩) :=
  ⟨(StopInstances_spec cloud [] ⟨Cloud.empty, []⟩).1 rfl,
   (StopInstances_spec cloud [⟨"i-1", ""⟩, ⟨"i-2", "10.0.0.6"⟩] ⟨Cloud.empty, []⟩).2 (by simp)⟩

/-- C3: when the Bootstrap State read lets bootstrap proceed, the bootstrap instance is
started and `saveState` then fails with `E`, `Bootstrap` issues exactly one further call,
`TerminateInstances` with the one-element list holding the id of the instance just
started, and returns no info together with exactly `E`, whatever that call answers; no
sleep and no instance listing follows (the polling loop is not entered). -/
theorem Bootstrap_persist_failure (b : Backend σ) (e : environ) (w : World σ)
    (err E : GoError) (inst : ec2.Instance) (w2 : World σ)
    (hload : (b.loadState w.st).1 = .error err) (hgo : fatalRead err = false)
    (hstart : startInstance b e 0 none true ⟨(b.loadState w.st).2, w.trace ++ [.loadState]⟩ =
      (.ok inst, w2))
    (hsave : (b.saveState { ZookeeperInstances := [inst.InstanceId] } w2.st).1 = some E) :
    Bootstrap b e w = (.error E,
      ⟨(b.TerminateInstances [inst.InstanceId]
          (b.saveState { ZookeeperInstances := [inst.InstanceId] } w2.st).2).2,
        w2.trace ++ [.saveState { ZookeeperInstances := [inst.InstanceId] },
          .TerminateInstances [inst.InstanceId]]⟩) := by
  simp [Bootstrap, World.call, hload, hgo, hstart, ec2.Instance.Id, hsave, StopInstances]

theorem Bootstrap_persist_failure_witness :
    Bootstrap cloud test1 ⟨Cloud.saveFails, []⟩ =
      (.error (.s3 500 "InternalError"),
        ⟨(cloud.TerminateInstances ["i-1"]
            (cloud.saveState { ZookeeperInstances := ["i-1"] }
              (startInstance cloud test1 0 none true
                ⟨Cloud.saveFails, [] ++ [.loadState]⟩).2.st).2).2,
          (startInstance cloud test1 0 none true
              ⟨Cloud.saveFails, [] ++ [.loadState]⟩).2.trace ++
            [.saveState { ZookeeperInstances := ["i-1"] }, .TerminateInstances ["i-1"]]⟩) :=
  Bootstrap_persist_failure cloud test1 _ (.s3 404 "The specified key does not exist.")
    (.s3 500 "InternalError") ⟨"i-1", ""⟩ _ rfl rfl rfl rfl

/-- C2 (the code at the failing input): the Bootstrap State read fails with an error that
is not an `*s3.Error` (a refused connection). `Bootstrap` does not abort: it sets up the
groups, issues `RunInstances`, saves the state and returns the endpoint of a new instance.
A read that fails with an `*s3.Error` of status 500 does abort, with that error and no
further call. -/
theorem Bootstrap_untyped_read_error_proceeds :
    Bootstrap cloud test1 ⟨Cloud.unavailable, []⟩ =
      (.error (.s3 500 "InternalError"), ⟨Cloud.unavailable, [.loadState]⟩) ∧
    (Bootstrap cloud test1
      ⟨Cloud.unreadable, []⟩).1 = .ok ⟨["10.0.0.5:2181"]⟩ ∧
    Event.CreateSecurityGroup "juju-test1" "juju group for test1" ∈
      (Bootstrap cloud test1 ⟨Cloud.unreadable, []⟩).2.trace ∧
    Event.saveState ⟨["i-1"]⟩ ∈
      (Bootstrap cloud test1 ⟨Cloud.unreadable, []⟩).2.trace ∧
    ((Bootstrap cloud test1 ⟨Cloud.unreadable, []⟩).2.trace.filter
      (fun ev => match ev with
        | .RunInstances _ => true
        | _ => false)).length = 1 :=
  ⟨rfl, rfl, by decide, by decide, by decide⟩

/-- C4 (the code at the failing input): an operation that always succeeds is invoked
twice by `attempt`, not once: the second invocation only serves to classify the error.
And since the error classified is not the one kept, an operation whose first invocation
succeeds and whose second fails with the targeted code is retried: `attempt` sleeps 20
times, invokes it 40 times and then returns nil. -/
theorem attempt_invokes_twice (code : String) (n : Nat) (trace : List Event) :
    attempt code tick ⟨n, trace⟩ =
      (none, ⟨n + 2, trace ++ [.Printf "attempt %d" "0", .Printf "error: %v" "<nil>"]⟩) ∧
    (attempt "InvalidGroup.InUse" alternating ⟨0, []⟩).1 = none ∧
    (attempt "InvalidGroup.InUse" alternating ⟨0, []⟩).2.st = 40 ∧
    ((attempt "InvalidGroup.InUse" alternating ⟨0, []⟩).2.trace.filter
      (fun ev => decide (ev = Event.Sleep 5000000000))).length = 20 := by
  refine ⟨?_, by decide, by decide, by decide⟩
  simp [attempt, attemptLoop, tick, World.emit, fmtErr]
  rfl

/-- The loop of `attempt` on an operation that always fails with the targeted code: it
runs all the iterations it has left, each a full round, and leaves through the bottom of
the loop. -/
theorem attemptLoop_exhausts (code : String) (f : World σ → Option GoError × World σ)
    (hfail : ∀ v, ∃ text, (f v).1 = some (.ec2 code text)) :
    ∀ (left i : Nat) (err : Option GoError) (w : World σ),
      (left = 0 → ∃ text, err = some (.ec2 code text)) →
      (∃ text, (attemptLoop code f left i err w).1 = some (.ec2 code text)) ∧
      (attemptLoop code f left i err w).2 =
        ((List.range' i left).foldl (fun v k => attemptRound f k v) w).emit
          (Event.Printf "number of attempts exceeded (err %v)"
            (fmtErr (attemptLoop code f left i err w).1)) := by
  intro left
  induction left with
  | zero =>
    intro i err w h
    refine ⟨?_, ?_⟩
    · simpa [attemptLoop] using h rfl
    · simp [attemptLoop]
  | succ left ih =>
    intro i err w _
    obtain ⟨t1, h1⟩ := hfail (w.emit (.Printf "attempt %d" (toString i)))
    obtain ⟨t2, h2⟩ := hfail
      ((f (w.emit (.Printf "attempt %d" (toString i)))).2.emit
        (.Printf "error: %v" (fmtErr (f (w.emit (.Printf "attempt %d" (toString i)))).1)))
    have hstep : attemptLoop code f (left + 1) i err w =
        attemptLoop code f left (i + 1) (f (w.emit (.Printf "attempt %d" (toString i)))).1
          (attemptRound f i w) := by
      simp [attemptLoop, attemptRound, h2]
    have hnext := ih (i + 1) (f (w.emit (.Printf "attempt %d" (toString i)))).1
      (attemptRound f i w) (fun _ => ⟨t1, h1⟩)
    rw [hstep]
    refine ⟨hnext.1, ?_⟩
    rw [hnext.2, List.range'_succ, List.foldl_cons]

/-- The iteration marks left by rounds of an operation that writes none itself. -/
theorem attemptRound_marks (f : World σ → Option GoError × World σ)
    (hquiet : ∀ v, (f v).2.trace.filter Event.isLoopMark = v.trace.filter Event.isLoopMark) :
    ∀ (left i : Nat) (w : World σ),
      ((List.range' i left).foldl (fun v k => attemptRound f k v) w).trace.filter
          Event.isLoopMark =
        w.trace.filter Event.isLoopMark ++
          (List.range' i left).flatMap
            (fun k => [Event.Printf "attempt %d" (toString k), Event.Sleep 5000000000]) := by
  intro left
  induction left with
  | zero =>
    intro i w
    simp
  | succ left ih =>
    intro i w
    rw [List.range'_succ, List.foldl_cons, ih]
    have hq1 := hquiet (w.emit (.Printf "attempt %d" (toString i)))
    have hq2 := hquiet ((f (w.emit (.Printf "attempt %d" (toString i)))).2.emit
        (.Printf "error: %v" (fmtErr (f (w.emit (.Printf "attempt %d" (toString i)))).1)))
    simp only [attemptRound, World.emit, List.filter_append] at hq1 hq2 ⊢
    rw [hq2, hq1]
    simp [Event.isLoopMark]

/-- C5: for every code and every operation that fails with an EC2 error of that code at
each invocation, `attempt` returns an EC2 error of that code after exactly 20 iterations:
the world it leaves is the one after the 20 rounds numbered 0 to 19, each ending in its
sleep, followed by the log line "number of attempts exceeded" written below the loop. For
an operation that writes no iteration mark of its own, the trace has thus gained exactly
the 20 marks `attempt 0` to `attempt 19`, each with its sleep, no more and no fewer. -/
theorem attempt_exhausts_budget (code : String) (f : World σ → Option GoError × World σ)
    (w : World σ) (hfail : ∀ v, ∃ text, (f v).1 = some (.ec2 code text)) :
    (∃ text, (attempt code f w).1 = some (.ec2 code text)) ∧
    (attempt code f w).2 =
      ((List.range 20).foldl (fun v k => attemptRound f k v) w).emit
        (Event.Printf "number of attempts exceeded (err %v)" (fmtErr (attempt code f w).1)) ∧
    ((∀ v, (f v).2.trace.filter Event.isLoopMark = v.trace.filter Event.isLoopMark) →
      (attempt code f w).2.trace.filter Event.isLoopMark =
        w.trace.filter Event.isLoopMark ++
          (List.range 20).flatMap
            (fun k => [Event.Printf "attempt %d" (toString k), Event.Sleep 5000000000])) := by
  have h := attemptLoop_exhausts code f hfail 20 0 none w (by simp)
  rw [List.range_eq_range']
  refine ⟨h.1, h.2, ?_⟩
  intro hquiet
  have hm := attemptRound_marks f hquiet 20 0 w
  unfold attempt
  rw [h.2]
  simp only [World.emit, List.filter_append]
  rw [hm]
  simp [Event.isLoopMark]

theorem attempt_exhausts_budget_witness :
    (∃ text, (attempt "InvalidGroup.InUse" busy ⟨0, []⟩).1 =
      some (.ec2 "InvalidGroup.InUse" text)) ∧
    (attempt "InvalidGroup.InUse" busy ⟨0, []⟩).2 =
      ((List.range 20).foldl (fun v k => attemptRound busy k v) ⟨0, []⟩).emit
        (Event.Printf "number of attempts exceeded (err %v)"
          (fmtErr (attempt "InvalidGroup.InUse" busy ⟨0, []⟩).1)) ∧
    ((∀ v, (busy v).2.trace.filter Event.isLoopMark = v.trace.filter Event.isLoopMark) →
      (attempt "InvalidGroup.InUse" busy ⟨0, []⟩).2.trace.filter Event.isLoopMark =
        ([] : List Event).filter Event.isLoopMark ++
          (List.range 20).flatMap
            (fun k => [Event.Printf "attempt %d" (toString k), Event.Sleep 5000000000])) :=
  attempt_exhausts_budget "InvalidGroup.InUse" busy ⟨0, []⟩
    (fun _ => ⟨"group is in use", rfl⟩)

/-- C7 (the claim fails): when the cloud refuses to terminate the live instance,
`Destroy` returns that error after the listing and the `TerminateInstances` call, and
neither the Bootstrap State deletion nor any security-group call is attempted. -/
theorem Destroy_skips_later_stages :
    (Destroy cloud test1 ⟨Cloud.stopFails, []⟩).1 = some (.ec2 "Unavailable" "try later") ∧
    (Destroy cloud test1 ⟨Cloud.stopFails, []⟩).2.trace =
      [.Instances test1.liveFilter, .TerminateInstances ["i-1"]] ∧
    Event.deleteState ∉ (Destroy cloud test1 ⟨Cloud.stopFails, []⟩).2.trace ∧
    Event.SecurityGroups none ∉ (Destroy cloud test1 ⟨Cloud.stopFails, []⟩).2.trace := by
  decide

/-- C7 (amended): `Destroy` runs its stages in order (list the live instances, stop
them, delete the Bootstrap State, delete the security groups) and stops at the first
stage that fails: it returns the error of that stage and the world as that stage left
it, so no later stage is attempted. When the first three stages succeed its result is
the result of the security-group deletion, and it returns nil only if every stage
succeeded. -/
theorem Destroy_fail_fast (b : Backend σ) (e : environ) (w : World σ) :
    (∀ err w1, Instances b e w = (.error err, w1) → Destroy b e w = (some err, w1)) ∧
    (∀ insts w1 err w2, Instances b e w = (.ok insts, w1) →
      StopInstances b insts w1 = (some err, w2) → Destroy b e w = (some err, w2)) ∧
    (∀ insts w1 w2 err, Instances b e w = (.ok insts, w1) →
      StopInstances b insts w1 = (none, w2) → (b.deleteState w2.st).1 = some err →
      Destroy b e w = (some err, ⟨(b.deleteState w2.st).2, w2.trace ++ [.deleteState]⟩)) ∧
    (∀ insts w1 w2, Instances b e w = (.ok insts, w1) →
      StopInstances b insts w1 = (none, w2) → (b.deleteState w2.st).1 = none →
      Destroy b e w =
        deleteSecurityGroups b e ⟨(b.deleteState w2.st).2, w2.trace ++ [.deleteState]⟩) ∧
    ((Destroy b e w).1 = none → ∃ insts w1 w2, Instances b e w = (.ok insts, w1) ∧
      StopInstances b insts w1 = (none, w2) ∧ (b.deleteState w2.st).1 = none ∧
      (deleteSecurityGroups b e ⟨(b.deleteState w2.st).2, w2.trace ++ [.deleteState]⟩).1 = none) := by
  refine ⟨?_, ?_, ?_, ?_, ?_⟩
  · intro err w1 h1
    simp [Destroy, h1]
  · intro insts w1 err w2 h1 h2
    simp [Destroy, h1, h2]
  · intro insts w1 w2 err h1 h2 h3
    simp [Destroy, h1, h2, World.call, h3]
  · intro insts w1 w2 h1 h2 h3
    simp only [Destroy, h1, h2, World.call, h3]
    split <;> simp_all
  · intro h
    unfold Destroy at h
    split at h
    · simp at h
    · rename_i insts w1 h1
      split at h
      · simp at h
      · rename_i w2 h2
        split at h
        · simp at h
        · rename_i w3 h3
          split at h
          · simp at h
          · rename_i w4 h4
            refine ⟨insts, w1, w2, h1, h2, ?_, ?_⟩
            · simpa [World.call] using congrArg Prod.fst h3
            · have h5 : w3 = ⟨(b.deleteState w2.st).2, w2.trace ++ [.deleteState]⟩ := by
                simpa [World.call] using (congrArg Prod.snd h3).symm
              rw [← h5, h4]

theorem Destroy_fail_fast_witness :
    Destroy cloud test1 ⟨Cloud.stopFails, []⟩ =
      (some (.ec2 "Unavailable" "try later"),
        (StopInstances cloud [⟨"i-1", "10.0.0.5"⟩]
          (Instances cloud test1 ⟨Cloud.stopFails, []⟩).2).2) :=
  (Destroy_fail_fast cloud test1 ⟨Cloud.stopFails, []⟩).2.1 [⟨"i-1", "10.0.0.5"⟩] _ _ _ rfl rfl

/-- The suffix appended by `zkAddr`. -/
theorem zkPortSuffix_eq : zkPortSuffix = ":2181" := by decide

/-- A successful `Instances` issues exactly one call, the listing with the live filter. -/
theorem Instances_ok_trace (b : Backend σ) (e : environ) (w w1 : World σ)
    (insts : List ec2.Instance) (h : Instances b e w = (.ok insts, w1)) :
    w1.trace = w.trace ++ [.Instances e.liveFilter] := by
  unfold Instances at h
  simp only [World.call] at h
  split at h
  · simp at h
  · rename_i resp w2 h2
    have h3 : w2 = w1 := by simpa using congrArg Prod.snd h
    have h4 := congrArg Prod.snd h2
    simp only at h4
    rw [← h3, ← h4]

/-- What a successful run of the polling loop of `Bootstrap` has done: `k` rounds of
sleep and listing, at most the rounds it had; the instance adopted keeps the id of the
initial one; leaving before the budget is spent means an address was seen; with no round
the instance is the initial one, else it is the first one of that id in the last listing. -/
theorem awaitDNS_ok (b : Backend σ) (e : environ) :
    ∀ (n : Nat) (inst : ec2.Instance) (w : World σ) (inst2 : ec2.Instance) (w2 : World σ),
      awaitDNS b e n inst w = (.ok inst2, w2) →
      inst2.InstanceId = inst.InstanceId ∧
      ∃ k, k ≤ n ∧
        w2.trace = w.trace ++
          (List.replicate k [Event.Sleep 5000000000, Event.Instances e.liveFilter]).flatten ∧
        (k < n → inst2.DNSName ≠ "") ∧
        (k = 0 → inst2 = inst ∧ w2 = w) ∧
        (0 < k → ∃ v insts, Instances b e v = (.ok insts, w2) ∧
          insts.find? (fun x => x.Id = inst.Id) = some inst2) := by
  intro n
  induction n with
  | zero =>
    intro inst w inst2 w2 h
    simp only [awaitDNS, Prod.mk.injEq, Except.ok.injEq] at h
    obtain ⟨h1, h2⟩ := h
    subst h1 h2
    exact ⟨rfl, 0, le_refl _, by simp, by simp, fun _ => ⟨rfl, rfl⟩, by simp⟩
  | succ n ih =>
    intro inst w inst2 w2 h
    unfold awaitDNS at h
    split at h
    · simp only [Prod.mk.injEq, Except.ok.injEq] at h
      obtain ⟨h1, h2⟩ := h
      subst h1 h2
      rename_i hdns
      exact ⟨rfl, 0, Nat.zero_le _, by simp, fun _ => hdns, fun _ => ⟨rfl, rfl⟩, by simp⟩
    · split at h
      · simp at h
      · rename_i insts w1 hlist
        split at h
        · simp at h
        · rename_i x hfind
          have hx : x.InstanceId = inst.InstanceId := by
            have := List.find?_some hfind
            simpa [ec2.Instance.Id] using this
          obtain ⟨hid, k, hk, htrace, hearly, hzero, hpos⟩ := ih x w1 inst2 w2 h
          have hw1 := Instances_ok_trace b e _ w1 insts hlist
          refine ⟨hid.trans hx, k + 1, Nat.succ_le_succ hk, ?_, ?_, by simp, ?_⟩
          · rw [htrace, hw1]
            simp [World.emit, List.replicate_succ]
          · intro hlt
            exact hearly (Nat.lt_of_succ_lt_succ hlt)
          · intro _
            rcases Nat.eq_zero_or_pos k with hk0 | hkpos
            · obtain ⟨hinst, hw2⟩ := hzero hk0
              rw [hinst, hw2]
              exact ⟨_, insts, hlist, hfind⟩
            · obtain ⟨v, insts4, hv, hf4⟩ := hpos hkpos
              refine ⟨v, insts4, hv, ?_⟩
              simpa [ec2.Instance.Id, hx] using hf4

/-- C9: whenever `Bootstrap` succeeds, the instance `inst` it reports has the id of
`inst0`, the instance started by this call, and a non-empty DNS name, and the info returned is
exactly the one-element list holding that name followed by ":2181"; after saving the
state the call has done `k` rounds of sleep and listing with `k` at most 20, and `inst`
is `inst0` itself when `k` is 0, else the first instance of that id in the last listing.
When the loop ends with an instance whose address is still empty, all 20 rounds have been
used and `Bootstrap` returns no info and the time-out error. -/
theorem Bootstrap_endpoint (b : Backend σ) (e : environ) (w : World σ) :
    (∀ info w4, Bootstrap b e w = (.ok info, w4) →
      ∃ err inst0 w2 inst k,
        (b.loadState w.st).1 = .error err ∧
        startInstance b e 0 none true ⟨(b.loadState w.st).2, w.trace ++ [.loadState]⟩ =
          (.ok inst0, w2) ∧
        inst.InstanceId = inst0.InstanceId ∧
        inst.DNSName ≠ "" ∧
        info = ⟨[inst.DNSName ++ ":2181"]⟩ ∧
        k ≤ 20 ∧
        w4.trace = w2.trace ++ [.saveState ⟨[inst0.InstanceId]⟩] ++
          (List.replicate k [Event.Sleep 5000000000, Event.Instances e.liveFilter]).flatten ∧
        (k = 0 → inst = inst0) ∧
        (0 < k → ∃ v insts, Instances b e v = (.ok insts, w4) ∧
          insts.find? (fun x => x.Id = inst0.Id) = some inst)) ∧
    (∀ err inst0 w2 inst w4,
      (b.loadState w.st).1 = .error err → fatalRead err = false →
      startInstance b e 0 none true ⟨(b.loadState w.st).2, w.trace ++ [.loadState]⟩ =
        (.ok inst0, w2) →
      (b.saveState ⟨[inst0.InstanceId]⟩ w2.st).1 = none →
      awaitDNS b e 20 inst0
        ⟨(b.saveState ⟨[inst0.InstanceId]⟩ w2.st).2,
          w2.trace ++ [.saveState ⟨[inst0.InstanceId]⟩]⟩ = (.ok inst, w4) →
      inst.DNSName = "" →
      Bootstrap b e w =
        (.error (.other "timed out trying to get bootstrap instance DNS address"), w4) ∧
      w4.trace = w2.trace ++ [.saveState ⟨[inst0.InstanceId]⟩] ++
        (List.replicate 20 [Event.Sleep 5000000000, Event.Instances e.liveFilter]).flatten) := by
  constructor
  · intro info w4 h
    unfold Bootstrap at h
    simp only [World.call] at h
    split at h
    · simp at h
    · rename_i err w1 hload
      have hl1 : (b.loadState w.st).1 = .error err := by simpa using congrArg Prod.fst hload
      have hl2 : w1 = ⟨(b.loadState w.st).2, w.trace ++ [.loadState]⟩ := by
        simpa using (congrArg Prod.snd hload).symm
      subst hl2
      split at h
      · simp at h
      · split at h
        · simp at h
        · rename_i inst0 w2 hstart
          split at h
          · simp at h
          · rename_i w3 hsave
            have hs2 : w3 = ⟨(b.saveState ⟨[inst0.InstanceId]⟩ w2.st).2,
                w2.trace ++ [.saveState ⟨[inst0.InstanceId]⟩]⟩ := by
              simpa [ec2.Instance.Id] using (congrArg Prod.snd hsave).symm
            split at h
            · simp at h
            · rename_i inst w5 hpoll
              split at h
              · simp at h
              · rename_i hdns
                simp only [Prod.mk.injEq, Except.ok.injEq] at h
                obtain ⟨hinfo, hw⟩ := h
                subst hw
                obtain ⟨hid, k, hk, htrace, _, hzero, hpos⟩ := awaitDNS_ok b e 20 inst0 w3 inst w5 hpoll
                refine ⟨err, inst0, w2, inst, k, hl1, hstart, hid, hdns, ?_, hk, ?_,
                  fun h0 => (hzero h0).1, hpos⟩
                · rw [← hinfo, zkAddr, zkPortSuffix_eq]
                · rw [htrace, hs2]
  · intro err inst0 w2 inst w4 hload hgo hstart hsave hpoll hdns
    obtain ⟨_, k, hk, htrace, hearly, _, _⟩ := awaitDNS_ok b e 20 inst0 _ inst w4 hpoll
    have hk20 : k = 20 := by
      by_contra hne
      exact hearly (lt_of_le_of_ne hk hne) hdns
    subst hk20
    refine ⟨?_, by simpa using htrace⟩
    simp [Bootstrap, World.call, hload, hgo, hstart, ec2.Instance.Id, hsave, hpoll, hdns]

theorem Bootstrap_endpoint_witness :
    (∃ err inst0 w2 inst k,
        (cloud.loadState Cloud.addressed).1 = .error err ∧
        startInstance cloud test1 0 none true
          ⟨(cloud.loadState Cloud.addressed).2, [] ++ [.loadState]⟩ = (.ok inst0, w2) ∧
        inst.InstanceId = inst0.InstanceId ∧
        inst.DNSName ≠ "" ∧
        (⟨["10.0.0.5:2181"]⟩ : state.Info) = ⟨[inst.DNSName ++ ":2181"]⟩ ∧
        k ≤ 20 ∧
        (Bootstrap cloud test1 ⟨Cloud.addressed, []⟩).2.trace =
          w2.trace ++ [.saveState ⟨[inst0.InstanceId]⟩] ++
            (List.replicate k
              [Event.Sleep 5000000000, Event.Instances test1.liveFilter]).flatten ∧
        (k = 0 → inst = inst0) ∧
        (0 < k → ∃ v insts,
          Instances cloud test1 v = (.ok insts, (Bootstrap cloud test1 ⟨Cloud.addressed, []⟩).2) ∧
          insts.find? (fun x => x.Id = inst0.Id) = some inst)) ∧
    (Bootstrap cloud test1 ⟨Cloud.silent, []⟩ =
        (.error (.other "timed out trying to get bootstrap instance DNS address"),
          (Bootstrap cloud test1 ⟨Cloud.silent, []⟩).2) ∧
      (Bootstrap cloud test1 ⟨Cloud.silent, []⟩).2.trace =
        (startInstance cloud test1 0 none true ⟨Cloud.silent, [] ++ [.loadState]⟩).2.trace ++
          [.saveState ⟨["i-1"]⟩] ++
          (List.replicate 20
            [Event.Sleep 5000000000, Event.Instances test1.liveFilter]).flatten) :=
  ⟨(Bootstrap_endpoint cloud test1 ⟨Cloud.addressed, []⟩).1 ⟨["10.0.0.5:2181"]⟩ _ rfl,
   (Bootstrap_endpoint cloud test1 ⟨Cloud.silent, []⟩).2
     (.s3 404 "The specified key does not exist.") ⟨"i-1", ""⟩ _ ⟨"i-1", ""⟩
     (Bootstrap cloud test1 ⟨Cloud.silent, []⟩).2 rfl rfl rfl rfl rfl rfl⟩

/-! ### Which calls an operation adds to the trace -/

theorem Grows.refl (P : Event → Prop) (w : World σ) : Grows P w w :=
  fun _ h => Or.inl h

theorem Grows.trans {P : Event → Prop} {w w2 w3 : World σ} (h1 : Grows P w w2)
    (h2 : Grows P w2 w3) : Grows P w w3 := by
  intro ev h
  rcases h2 ev h with h | h
  · exact h1 ev h
  · exact Or.inr h

theorem Grows.emit {P : Event → Prop} (w : World σ) (ev : Event) (h : P ev) :
    Grows P w (w.emit ev) := by
  intro x hx
  simp only [World.emit, List.mem_append, List.mem_singleton] at hx
  rcases hx with hx | hx
  · exact Or.inl hx
  · exact Or.inr (hx ▸ h)

theorem Grows.call {P : Event → Prop} {α : Type} (w : World σ) (ev : Event) (op : σ → α × σ)
    (h : P ev) : Grows P w (w.call ev op).2 := by
  intro x hx
  simp only [World.call, List.mem_append, List.mem_singleton] at hx
  rcases hx with hx | hx
  · exact Or.inl hx
  · exact Or.inr (hx ▸ h)

/-- The loop of `attempt` adds its log lines, its sleeps and what the operation adds. -/
theorem attemptLoop_grows (P : Event → Prop) (hlog : ∀ format arg, P (.Printf format arg))
    (hsleep : ∀ n, P (.Sleep n)) (code : String) (f : World σ → Option GoError × World σ)
    (hf : ∀ v, Grows P v (f v).2) :
    ∀ (left i : Nat) (err : Option GoError) (w : World σ),
      Grows P w (attemptLoop code f left i err w).2 := by
  intro left
  induction left with
  | zero =>
    intro i err w
    simpa [attemptLoop] using Grows.emit w _ (hlog _ _)
  | succ left ih =>
    intro i err w
    have hbody : Grows P w
        (f ((f (w.emit (.Printf "attempt %d" (toString i)))).2.emit
          (.Printf "error: %v" (fmtErr (f (w.emit (.Printf "attempt %d" (toString i)))).1)))).2 :=
      (((Grows.emit w _ (hlog _ _)).trans (hf _)).trans (Grows.emit _ _ (hlog _ _))).trans (hf _)
    unfold attemptLoop
    simp only
    split
    · split
      · exact hbody
      · exact (hbody.trans (Grows.emit _ _ (hsleep _))).trans (ih _ _ _)
    · exact hbody

/-- The calls `delGroup` adds: deletions of the group it is given, log lines and sleeps. -/
theorem delGroup_grows (P : Event → Prop) (hlog : ∀ format arg, P (.Printf format arg))
    (hsleep : ∀ n, P (.Sleep n)) (b : Backend σ) (g : ec2.SecurityGroup)
    (hg : P (.DeleteSecurityGroup g)) (w : World σ) : Grows P w (delGroup b g w).2 := by
  have h := attemptLoop_grows P hlog hsleep "InvalidGroup.InUse"
    (fun v => v.call (.DeleteSecurityGroup g) (b.DeleteSecurityGroup g))
    (fun v => Grows.call v _ _ hg) 20 0 none w
  unfold delGroup attempt
  split
  · rename_i heq
    rw [heq] at h
    exact h
  · rename_i heq
    rw [heq] at h
    exact h

/-! ### The parallel executor -/

/-- Running one operation adds what the operation adds and keeps the operations. -/
theorem parallel.runOne_grows (P : Event → Prop) (p : parallel σ τ)
    (hops : ∀ op ∈ p.ops, ∀ vars v, Grows P v (op vars v).2) (vars : τ) (i : Nat)
    (w : World σ) :
    Grows P w (p.runOne vars i w).2 ∧ (p.runOne vars i w).1.ops = p.ops := by
  unfold parallel.runOne
  split
  · exact ⟨Grows.refl _ _, rfl⟩
  · split
    · exact ⟨Grows.refl _ _, rfl⟩
    · rename_i op hop
      exact ⟨hops op (List.getElem?_mem hop) vars w, rfl⟩

/-- Running operations adds what the operations add and keeps the operations. -/
theorem parallel.runAll_grows (P : Event → Prop) (vars : τ) :
    ∀ (ids : List Nat) (p : parallel σ τ) (w : World σ),
      (∀ op ∈ p.ops, ∀ vars v, Grows P v (op vars v).2) →
      Grows P w (p.runAll vars ids w).2 ∧ (p.runAll vars ids w).1.ops = p.ops := by
  intro ids
  induction ids with
  | nil =>
    intro p w _
    exact ⟨Grows.refl _ _, rfl⟩
  | cons i rest ih =>
    intro p w hops
    obtain ⟨h1, h2⟩ := parallel.runOne_grows P p hops vars i w
    have hops2 : ∀ op ∈ (p.runOne vars i w).1.ops, ∀ vars v, Grows P v (op vars v).2 := by
      rw [h2]
      exact hops
    obtain ⟨h3, h4⟩ := ih (p.runOne vars i w).1 (p.runOne vars i w).2 hops2
    have hstep : p.runAll vars (i :: rest) w =
        (p.runOne vars i w).1.runAll vars rest (p.runOne vars i w).2 := by
      simp [parallel.runAll]
    rw [hstep]
    exact ⟨h1.trans h3, h4.trans h2⟩

/-- A scheduling point adds what the operations add and keeps the operations. -/
theorem parallel.yield_grows (P : Event → Prop) (b : Backend σ) (p : parallel σ τ)
    (hops : ∀ op ∈ p.ops, ∀ vars v, Grows P v (op vars v).2) (vars : τ) (w : World σ) :
    Grows P w (p.yield b vars w).2 ∧ (p.yield b vars w).1.ops = p.ops := by
  obtain ⟨h1, h2⟩ := parallel.runAll_grows P vars (b.schedule w.st).1 p
    ⟨(b.schedule w.st).2, w.trace⟩ hops
  refine ⟨?_, h2⟩
  intro ev hev
  exact h1 ev hev

/-- The call `p.do(op)` adds what the operations before add, and appends `op`. -/
theorem parallel.doFn_grows (P : Event → Prop) (p : parallel σ τ)
    (hops : ∀ op ∈ p.ops, ∀ vars v, Grows P v (op vars v).2)
    (op : τ → World σ → Option GoError × World σ) (vars : τ) (w : World σ) :
    Grows P w (p.doFn op vars w).2 ∧ (p.doFn op vars w).1.ops = p.ops ++ [op] := by
  obtain ⟨h1, h2⟩ := parallel.runAll_grows P vars
    (p.pending.take (p.pending.length + 1 - p.max)) p w hops
  refine ⟨h1, ?_⟩
  simp only [parallel.doFn]
  rw [h2]

/-- The call `p.wait()` adds what the operations add. -/
theorem parallel.wait_grows (P : Event → Prop) (b : Backend σ) (p : parallel σ τ)
    (hops : ∀ op ∈ p.ops, ∀ vars v, Grows P v (op vars v).2) (vars : τ) (w : World σ) :
    Grows P w (p.wait b vars w).2 := by
  obtain ⟨h1, h2⟩ := parallel.yield_grows P b p hops vars w
  have hops2 : ∀ op ∈ (p.yield b vars w).1.ops, ∀ vars v, Grows P v (op vars v).2 := by
    rw [h2]
    exact hops
  obtain ⟨h3, _⟩ := parallel.runAll_grows P vars (p.yield b vars w).1.pending
    (p.yield b vars w).1 (p.yield b vars w).2 hops2
  exact h1.trans h3

/-- Every `p.do` call of `deleteSecurityGroups` is admissible for its environment,
whatever the backend and its scheduler do. -/
theorem deleteSecurityGroups_grows (b : Backend σ) (e : environ) (w : World σ) :
    Grows (Targets e) w (deleteSecurityGroups b e w).2 := by
  have hlog : ∀ format arg, Targets e (.Printf format arg) := by
    intro _ _ g hg
    cases hg
  have hsleep : ∀ n, Targets e (.Sleep n) := by
    intro _ g hg
    cases hg
  have hdel : ∀ (g : ec2.SecurityGroup) (v : World σ),
      Grows (Targets e) v (delGroup b g v).2 := by
    intro g v
    apply delGroup_grows _ hlog hsleep
    intro g2 hg2
    cases hg2
  have hclosure : ∀ op ∈ [fun (cur : ec2.SecurityGroupInfo) (v : World σ) =>
      delGroup b cur.SecurityGroup v], ∀ vars v, Grows (Targets e) v (op vars v).2 := by
    intro op hop vars v
    simp only [List.mem_singleton] at hop
    subst hop
    exact hdel _ _
  -- the first operation
  obtain ⟨hs1, hs1ops⟩ := parallel.doFn_grows (Targets e)
    (newParallel 20 : parallel σ ec2.SecurityGroupInfo)
    (by intro op hop; cases hop)
    (fun _ v => delGroup b { Name := e.groupName } v) ec2.SecurityGroupInfo.zero
    (w.emit (.parallelDo { Name := e.groupName }))
  have hemit1 : Grows (Targets e) w (w.emit (.parallelDo { Name := e.groupName })) := by
    apply Grows.emit
    intro g hg
    cases hg
    exact Or.inl rfl
  have hgood1 : ∀ op ∈ ((newParallel 20 : parallel σ ec2.SecurityGroupInfo).doFn
      (fun _ v => delGroup b { Name := e.groupName } v) ec2.SecurityGroupInfo.zero
      (w.emit (.parallelDo { Name := e.groupName }))).1.ops,
      ∀ vars v, Grows (Targets e) v (op vars v).2 := by
    rw [hs1ops]
    intro op hop vars v
    simp only [newParallel, List.nil_append, List.mem_singleton] at hop
    subst hop
    exact hdel _ _
  obtain ⟨hy1, hy1ops⟩ := parallel.yield_grows (Targets e) b _ hgood1
    ec2.SecurityGroupInfo.zero
    ((newParallel 20 : parallel σ ec2.SecurityGroupInfo).doFn
      (fun _ v => delGroup b { Name := e.groupName } v) ec2.SecurityGroupInfo.zero
      (w.emit (.parallelDo { Name := e.groupName }))).2
  have hgoody : ∀ op ∈ (((newParallel 20 : parallel σ ec2.SecurityGroupInfo).doFn
      (fun _ v => delGroup b { Name := e.groupName } v) ec2.SecurityGroupInfo.zero
      (w.emit (.parallelDo { Name := e.groupName }))).1.yield b ec2.SecurityGroupInfo.zero
      ((newParallel 20 : parallel σ ec2.SecurityGroupInfo).doFn
        (fun _ v => delGroup b { Name := e.groupName } v) ec2.SecurityGroupInfo.zero
        (w.emit (.parallelDo { Name := e.groupName }))).2).1.ops,
      ∀ vars v, Grows (Targets e) v (op vars v).2 := by
    rw [hy1ops]
    exact hgood1
  have hbefore := (hemit1.trans hs1).trans hy1
  -- the loop
  have hfold : ∀ (groups : List ec2.SecurityGroupInfo)
      (acc : parallel σ ec2.SecurityGroupInfo × World σ),
      (∀ op ∈ acc.1.ops, ∀ vars v, Grows (Targets e) v (op vars v).2) →
      (∀ op ∈ (groups.foldl (fun (acc : parallel σ ec2.SecurityGroupInfo × World σ) g =>
          if strings.HasPrefix g.Name (e.groupName ++ "-") then
            (acc.1.doFn (fun cur v => delGroup b cur.SecurityGroup v) g
              (acc.2.emit (.parallelDo g.SecurityGroup))).1.yield b g
              (acc.1.doFn (fun cur v => delGroup b cur.SecurityGroup v) g
                (acc.2.emit (.parallelDo g.SecurityGroup))).2
          else acc.1.yield b g acc.2) acc).1.ops,
        ∀ vars v, Grows (Targets e) v (op vars v).2) ∧
      Grows (Targets e) acc.2
        (groups.foldl (fun (acc : parallel σ ec2.SecurityGroupInfo × World σ) g =>
          if strings.HasPrefix g.Name (e.groupName ++ "-") then
            (acc.1.doFn (fun cur v => delGroup b cur.SecurityGroup v) g
              (acc.2.emit (.parallelDo g.SecurityGroup))).1.yield b g
              (acc.1.doFn (fun cur v => delGroup b cur.SecurityGroup v) g
                (acc.2.emit (.parallelDo g.SecurityGroup))).2
          else acc.1.yield b g acc.2) acc).2 := by
    intro groups
    induction groups with
    | nil =>
      intro acc hacc
      exact ⟨hacc, Grows.refl _ _⟩
    | cons g rest ih =>
      intro acc hacc
      simp only [List.foldl_cons]
      by_cases hpre : strings.HasPrefix g.Name (e.groupName ++ "-") = true
      · simp only [hpre, if_true]
        obtain ⟨hd, hdops⟩ := parallel.doFn_grows (Targets e) acc.1 hacc
          (fun cur v => delGroup b cur.SecurityGroup v) g
          (acc.2.emit (.parallelDo g.SecurityGroup))
        have hgoodd : ∀ op ∈ (acc.1.doFn (fun cur v => delGroup b cur.SecurityGroup v) g
            (acc.2.emit (.parallelDo g.SecurityGroup))).1.ops,
            ∀ vars v, Grows (Targets e) v (op vars v).2 := by
          rw [hdops]
          intro op hop
          rcases List.mem_append.mp hop with hop | hop
          · exact hacc op hop
          · exact hclosure op hop
        obtain ⟨hy, hyops⟩ := parallel.yield_grows (Targets e) b _ hgoodd g
          (acc.1.doFn (fun cur v => delGroup b cur.SecurityGroup v) g
            (acc.2.emit (.parallelDo g.SecurityGroup))).2
        have hgoody2 : ∀ op ∈ ((acc.1.doFn (fun cur v => delGroup b cur.SecurityGroup v) g
            (acc.2.emit (.parallelDo g.SecurityGroup))).1.yield b g
            (acc.1.doFn (fun cur v => delGroup b cur.SecurityGroup v) g
              (acc.2.emit (.parallelDo g.SecurityGroup))).2).1.ops,
            ∀ vars v, Grows (Targets e) v (op vars v).2 := by
          rw [hyops]
          exact hgoodd
        obtain ⟨i1, i2⟩ := ih _ hgoody2
        refine ⟨i1, ?_⟩
        have hemit : Grows (Targets e) acc.2 (acc.2.emit (.parallelDo g.SecurityGroup)) := by
          apply Grows.emit
          intro g2 hg2
          cases hg2
          exact Or.inr hpre
        exact ((hemit.trans hd).trans hy).trans i2
      · simp only [hpre]
        obtain ⟨hy, hyops⟩ := parallel.yield_grows (Targets e) b acc.1 hacc g acc.2
        have hgoody2 : ∀ op ∈ (acc.1.yield b g acc.2).1.ops,
            ∀ vars v, Grows (Targets e) v (op vars v).2 := by
          rw [hyops]
          exact hacc
        obtain ⟨i1, i2⟩ := ih _ hgoody2
        exact ⟨i1, hy.trans i2⟩
  unfold deleteSecurityGroups
  simp only
  split
  · rename_i err w2 heq
    have hw2 : w2 = ((((newParallel 20 : parallel σ ec2.SecurityGroupInfo).doFn
        (fun _ v => delGroup b { Name := e.groupName } v) ec2.SecurityGroupInfo.zero
        (w.emit (.parallelDo { Name := e.groupName }))).1.yield b ec2.SecurityGroupInfo.zero
        ((newParallel 20 : parallel σ ec2.SecurityGroupInfo).doFn
          (fun _ v => delGroup b { Name := e.groupName } v) ec2.SecurityGroupInfo.zero
          (w.emit (.parallelDo { Name := e.groupName }))).2).2.call
        (.SecurityGroups none) (b.SecurityGroups none)).2 := by rw [heq]
    rw [hw2]
    apply hbefore.trans
    apply Grows.call
    intro g hg
    cases hg
  · rename_i groups w2 heq
    have hw2 : w2 = ((((newParallel 20 : parallel σ ec2.SecurityGroupInfo).doFn
        (fun _ v => delGroup b { Name := e.groupName } v) ec2.SecurityGroupInfo.zero
        (w.emit (.parallelDo { Name := e.groupName }))).1.yield b ec2.SecurityGroupInfo.zero
        ((newParallel 20 : parallel σ ec2.SecurityGroupInfo).doFn
          (fun _ v => delGroup b { Name := e.groupName } v) ec2.SecurityGroupInfo.zero
          (w.emit (.parallelDo { Name := e.groupName }))).2).2.call
        (.SecurityGroups none) (b.SecurityGroups none)).2 := by rw [heq]
    have hlist : Grows (Targets e) w w2 := by
      rw [hw2]
      apply hbefore.trans
      apply Grows.call
      intro g hg
      cases hg
    obtain ⟨i1, i2⟩ := hfold groups (_, w2) hgoody
    exact (hlist.trans i2).trans (parallel.wait_grows (Targets e) b _ i1 _ _)

/-! ### Group names of two environments -/

/-- No decimal digit is a dash. -/
theorem digitChar_ne_dash (k : Nat) (h : k < 10) : Nat.digitChar k ≠ '-' := by
  interval_cases k <;> decide

/-- The decimal rendering of a natural number holds no dash. -/
theorem toDigitsCore_no_dash :
    ∀ (fuel n : Nat) (ds : List Char), '-' ∉ ds → '-' ∉ Nat.toDigitsCore 10 fuel n ds := by
  intro fuel
  induction fuel with
  | zero =>
    intro n ds h
    simpa [Nat.toDigitsCore] using h
  | succ fuel ih =>
    intro n ds h
    have hcons : '-' ∉ Nat.digitChar (n % 10) :: ds := by
      intro hmem
      rcases List.mem_cons.mp hmem with h1 | h1
      · exact digitChar_ne_dash _ (Nat.mod_lt _ (by decide)) h1.symm
      · exact h h1
    unfold Nat.toDigitsCore
    simp only
    split
    · exact hcons
    · exact ih _ _ hcons

theorem nat_toString_no_dash (k : Nat) : '-' ∉ (toString k).data := by
  show '-' ∉ (Nat.toDigits 10 k).asString.data
  exact toDigitsCore_no_dash _ _ [] (by simp)

/-- In the rendering of a machine id a dash only stands in front. -/
theorem int_toString_dash (m : Int) (r : List Char) (hr : r ≠ [])
    (h : (r ++ ['-']) <+: (toString m).data) : False := by
  have hmem : ∀ (l : List Char), (l ++ ['-']) <+: (toString m).data → '-' ∈ (toString m).data :=
    fun l hl => hl.subset (List.mem_append_right _ (List.mem_singleton_self _))
  cases m with
  | ofNat k =>
    exact nat_toString_no_dash k (hmem r h)
  | negSucc k =>
    have hdata : (toString (Int.negSucc k)).data = '-' :: (toString (k + 1)).data := by
      show ("-" ++ toString (k + 1)).data = _
      simp
    rw [hdata] at h
    cases r with
    | nil => exact hr rfl
    | cons c r2 =>
      obtain ⟨u, hu⟩ := h
      simp only [List.cons_append, List.cons.injEq] at hu
      have h2 : (r2 ++ ['-']) <+: (toString (k + 1)).data := ⟨u, by simpa using hu.2⟩
      exact nat_toString_no_dash (k + 1)
        (h2.subset (List.mem_append_right _ (List.mem_singleton_self _)))

/-- A word that is `a` or starts with `a-` is neither `b` nor `b-` followed by a machine
id, unless `b` starts with `a-`, or `a` is `b-`, or `a` is `b-` followed by a machine id. -/
theorem names_disjoint (a b n : List Char) (hne : a ≠ b)
    (hab : ¬ (a ++ ['-']) <+: b)
    (hid : ∀ m : Int, a ≠ b ++ ['-'] ++ (toString m).data)
    (hdash : a ≠ b ++ ['-'])
    (hn : n = a ∨ (a ++ ['-']) <+: n) :
    n ≠ b ∧ ∀ m : Int, n ≠ b ++ ['-'] ++ (toString m).data := by
  rcases hn with hn | hn
  · subst hn
    exact ⟨hne, hid⟩
  · refine ⟨?_, ?_⟩
    · intro h
      exact hab (h ▸ hn)
    · intro m h
      rw [h, List.append_assoc] at hn
      rcases List.prefix_or_prefix_of_prefix hn
        (List.prefix_append b (['-'] ++ (toString m).data)) with h1 | h1
      · exact hab h1
      · obtain ⟨r, hr⟩ := h1
        rw [← hr] at hn
        have hr2 : r <+: ['-'] ++ (toString m).data := (List.prefix_append_right_inj b).mp hn
        cases r with
        | nil =>
          apply hab
          rw [← hr]
          simp
        | cons c r2 =>
          obtain ⟨u, hu⟩ := hr2
          simp only [List.cons_append, List.singleton_append, List.cons.injEq] at hu
          obtain ⟨hc, hu2⟩ := hu
          subst hc
          rcases List.eq_nil_or_concat r2 with h0 | ⟨r3, c3, h3⟩
          · subst h0
            exact hne (List.append_inj_left' hr.symm rfl)
          · subst h3
            have h4 : b ++ '-' :: r3.concat c3 = (b ++ '-' :: r3) ++ [c3] := by simp
            rw [h4] at hr
            have h5 : a = b ++ '-' :: r3 := List.append_inj_left' hr.symm rfl
            have h6 : ['-'] = [c3] := List.append_inj_right' hr.symm rfl
            have h7 : c3 = '-' := by simpa using h6.symm
            subst h7
            rcases List.eq_nil_or_concat r3 with h8 | _
            · subst h8
              exact hdash (by simpa using h5)
            · have h9 : (r3 ++ ['-']) <+: (toString m).data := ⟨u, by simpa using hu2⟩
              have hr3 : r3 ≠ [] := by
                intro h10
                subst h10
                exact hdash (by simpa using h5)
              exact int_toString_dash m r3 hr3 h9

/-- C10 (the claim fails): environments `test1` and `test1-eu` have distinct names, yet
`deleteSecurityGroups` of `test1` hands to the executor deletions for the environment
group and for the machine group 0 of `test1-eu`, both listed with a name that starts with
`juju-test1-`. Likewise the environment group of `test1-0`, always handed over, has the
name of the machine group 0 of `test1`, and the listed group of machine -1 of `test1` has a
name that starts with the group name of `test1-` and a dash. -/
theorem deleteSecurityGroups_reaches_other_environment :
    (test1.name ≠ test1eu.name ∧
      Event.parallelDo { Id := "sg-b", Name := test1eu.groupName } ∈
        (deleteSecurityGroups cloud test1 ⟨Cloud.shared, []⟩).2.trace ∧
      Event.parallelDo { Id := "sg-c", Name := test1eu.machineGroupName 0 } ∈
        (deleteSecurityGroups cloud test1 ⟨Cloud.shared, []⟩).2.trace) ∧
    (test1m0.name ≠ test1.name ∧
      Event.parallelDo { Id := "", Name := test1.machineGroupName 0 } ∈
        (deleteSecurityGroups cloud test1m0 ⟨Cloud.empty, []⟩).2.trace) ∧
    (test1dash.name ≠ test1.name ∧
      Event.parallelDo { Id := "sg-n", Name := test1.machineGroupName (-1) } ∈
        (deleteSecurityGroups cloud test1dash ⟨Cloud.negative, []⟩).2.trace) := by
  decide

/-- C10 (amended): for two environments with distinct names `A` and `B` such that `B`
does not start with `A` and a dash, and `A` is neither `B` and a dash nor `B`, a dash and
a machine id, whatever the backend lists and whenever its scheduler lets the deletions
run: every group for which `deleteSecurityGroups` of `A` calls `p.do` (the group named
`groupName()` of `A`, and the listed groups in hand at the call, whose name starts with
that name and a dash) bears neither the name of the environment group of `B` nor the name
of a machine group of `B`. -/
theorem deleteSecurityGroups_spares_unrelated (b : Backend σ) (A B : environ) (w : World σ)
    (hne : A.name ≠ B.name)
    (hAB : strings.HasPrefix B.name (A.name ++ "-") = false)
    (hid : ∀ machineId : Int, A.name ≠ B.name ++ "-" ++ toString machineId)
    (hdash : A.name ≠ B.name ++ "-")
    (g : ec2.SecurityGroup)
    (hg : Event.parallelDo g ∈ (deleteSecurityGroups b A w).2.trace) :
    Event.parallelDo g ∈ w.trace ∨
      (g.Name ≠ B.groupName ∧ ∀ machineId : Int, g.Name ≠ B.machineGroupName machineId) := by
  rcases deleteSecurityGroups_grows b A w _ hg with h | h
  · exact Or.inl h
  · right
    have hne2 : A.name.data ≠ B.name.data := fun h2 => hne (String.ext h2)
    have hab : ¬ (A.name.data ++ ['-']) <+: B.name.data := by
      intro h2
      have : strings.HasPrefix B.name (A.name ++ "-") = true := by
        simpa [strings.HasPrefix] using h2
      rw [hAB] at this
      cases this
    have hid2 : ∀ m : Int, A.name.data ≠ B.name.data ++ ['-'] ++ (toString m).data := by
      intro m h2
      apply hid m
      apply String.ext
      rw [h2]
      simp
    have hdash2 : A.name.data ≠ B.name.data ++ ['-'] := by
      intro h2
      apply hdash
      apply String.ext
      rw [h2]
      simp
    have hname : g.Name.data = "juju-".data ++ A.name.data ∨
        ("juju-".data ++ A.name.data ++ ['-']) <+: g.Name.data := by
      rcases h g rfl with h3 | h3
      · left
        rw [h3]
        simp [environ.groupName]
      · right
        simpa [strings.HasPrefix, environ.groupName] using h3
    obtain ⟨rest, hrest⟩ : ∃ rest, g.Name.data = "juju-".data ++ rest := by
      rcases hname with h3 | ⟨u, hu⟩
      · exact ⟨_, h3⟩
      · exact ⟨A.name.data ++ ['-'] ++ u, by rw [← hu]; simp⟩
    have hrest2 : rest = A.name.data ∨ (A.name.data ++ ['-']) <+: rest := by
      rw [hrest] at hname
      rcases hname with h3 | h3
      · exact Or.inl (List.append_cancel_left h3)
      · right
        rw [List.append_assoc] at h3
        exact (List.prefix_append_right_inj _).mp h3
    obtain ⟨d1, d2⟩ := names_disjoint _ _ rest hne2 hab hid2 hdash2 hrest2
    refine ⟨?_, ?_⟩
    · intro h4
      have h5 : g.Name.data = "juju-".data ++ B.name.data := by
        rw [h4]
        simp [environ.groupName]
      rw [hrest] at h5
      exact d1 (List.append_cancel_left h5)
    · intro machineId h4
      have h5 : g.Name.data =
          "juju-".data ++ (B.name.data ++ ['-'] ++ (toString machineId).data) := by
        rw [h4]
        simp [environ.machineGroupName, environ.groupName]
      rw [hrest] at h5
      exact d2 machineId (List.append_cancel_left h5)

theorem deleteSecurityGroups_spares_unrelated_witness :
    Event.parallelDo { Id := "sg-b", Name := "juju-test1-eu" } ∈ ([] : List Event) ∨
      (({ Id := "sg-b", Name := "juju-test1-eu" } : ec2.SecurityGroup).Name ≠ test2.groupName ∧
        ∀ machineId : Int,
          ({ Id := "sg-b", Name := "juju-test1-eu" } : ec2.SecurityGroup).Name ≠
            test2.machineGroupName machineId) :=
  deleteSecurityGroups_spares_unrelated cloud test1 test2 ⟨Cloud.shared, []⟩ (by decide)
    (by decide)
    (fun machineId h => by
      have h2 := congrArg String.data h
      simp [test1, test2] at h2)
    (by decide) { Id := "sg-b", Name := "juju-test1-eu" } (by decide)

/-- The closures that `deleteSecurityGroups` hands over in its loop read the loop variable
when they run. With the machine group 0 of `test1` listed before the group of `test2` and
the deletions running at `wait`, the deletion handed over for `juju-test1-0` is issued for
the group of `test2`: that group is gone and `juju-test1-0` is still there. -/
theorem deleteSecurityGroups_closure_reads_loop_variable :
    Event.parallelDo { Id := "sg-m", Name := "juju-test1-0" } ∈
      (deleteSecurityGroups cloud test1 ⟨Cloud.mixed, []⟩).2.trace ∧
    Event.parallelDo { Id := "sg-t", Name := "juju-test2" } ∉
      (deleteSecurityGroups cloud test1 ⟨Cloud.mixed, []⟩).2.trace ∧
    Event.DeleteSecurityGroup { Id := "sg-t", Name := "juju-test2" } ∈
      (deleteSecurityGroups cloud test1 ⟨Cloud.mixed, []⟩).2.trace ∧
    Event.DeleteSecurityGroup { Id := "sg-m", Name := "juju-test1-0" } ∉
      (deleteSecurityGroups cloud test1 ⟨Cloud.mixed, []⟩).2.trace ∧
    (deleteSecurityGroups cloud test1 ⟨Cloud.mixed, []⟩).2.st.groups.map
      (fun x => x.Name) = ["juju-test1-0"] := by
  decide

/-! ### The group store of the reference cloud -/

theorem Cloud.freshId_ne_empty (k : Nat) : Cloud.freshId k ≠ "" := by
  intro h
  have h2 := congrArg String.data h
  simp [Cloud.freshId] at h2

theorem Cloud.freshId_inj {j k : Nat} (h : Cloud.freshId j = Cloud.freshId k) : j = k := by
  have h2 := congrArg String.data h
  simp only [Cloud.freshId, String.data_append] at h2
  have h3 := congrArg List.length (List.append_cancel_left h2)
  simpa using h3

/-- In a store with unique names, two handles of the same name are the same handle. -/
theorem Cloud.WF.same_name {c : Cloud} (hwf : c.WF) {x y : ec2.SecurityGroup}
    (hx : x ∈ c.handles) (hy : y ∈ c.handles) (h : x.Name = y.Name) : x = y :=
  List.inj_on_of_nodup_map hwf.names hx hy h

/-- In a store with unique ids, two handles of the same id are the same handle. -/
theorem Cloud.WF.same_id {c : Cloud} (hwf : c.WF) {x y : ec2.SecurityGroup}
    (hx : x ∈ c.handles) (hy : y ∈ c.handles) (h : x.Id = y.Id) : x = y :=
  List.inj_on_of_nodup_map hwf.ids hx hy h

/-- Creation of a group whose name is free: the answer and the new store. -/
theorem Cloud.create_free (c : Cloud) (name descr : String)
    (hno : ∀ h ∈ c.handles, h.Name ≠ name) :
    Cloud.CreateSecurityGroup name descr c =
      (.ok { Id := Cloud.freshId c.nextId, Name := name },
        { c with
          groups := c.groups ++
            [{ SecurityGroup := { Id := Cloud.freshId c.nextId, Name := name }
               Description := descr
               IPPerms := [] }]
          nextId := c.nextId + 1 }) := by
  have hany : c.groups.any (fun g => g.Name = name) = false := by
    rw [List.any_eq_false]
    intro g hg
    have := hno g.SecurityGroup (List.mem_map_of_mem _ hg)
    simpa [ec2.SecurityGroupInfo.Name] using this
  simp [Cloud.CreateSecurityGroup, hany]

theorem Cloud.create_handles (c : Cloud) (name descr : String)
    (hno : ∀ h ∈ c.handles, h.Name ≠ name) :
    (Cloud.CreateSecurityGroup name descr c).2.handles =
      c.handles ++ [{ Id := Cloud.freshId c.nextId, Name := name }] := by
  rw [Cloud.create_free c name descr hno]
  simp [Cloud.handles]

theorem Cloud.create_nextId (c : Cloud) (name descr : String)
    (hno : ∀ h ∈ c.handles, h.Name ≠ name) :
    (Cloud.CreateSecurityGroup name descr c).2.nextId = c.nextId + 1 := by
  rw [Cloud.create_free c name descr hno]

theorem Cloud.create_WF (c : Cloud) (name descr : String) (hwf : c.WF)
    (hno : ∀ h ∈ c.handles, h.Name ≠ name) :
    (Cloud.CreateSecurityGroup name descr c).2.WF := by
  refine ⟨?_, ?_, ?_⟩
  · rw [Cloud.create_handles c name descr hno, List.map_append, List.nodup_append]
    refine ⟨hwf.names, by simp, ?_⟩
    intro n h1 h2
    simp only [List.map_cons, List.map_nil, List.mem_singleton] at h2
    obtain ⟨h, hh, hn⟩ := List.mem_map.mp h1
    exact hno h hh (hn.trans h2)
  · rw [Cloud.create_handles c name descr hno, List.map_append, List.nodup_append]
    refine ⟨hwf.ids, by simp, ?_⟩
    intro n h1 h2
    simp only [List.map_cons, List.map_nil, List.mem_singleton] at h2
    obtain ⟨h, hh, hn⟩ := List.mem_map.mp h1
    exact (hwf.issued h hh).2 c.nextId (le_refl _) (hn.trans h2)
  · intro h hh
    rw [Cloud.create_handles c name descr hno] at hh
    rw [Cloud.create_nextId c name descr hno]
    rcases List.mem_append.mp hh with hh | hh
    · exact ⟨(hwf.issued h hh).1, fun k hk => (hwf.issued h hh).2 k (by omega)⟩
    · simp only [List.mem_singleton] at hh
      subst hh
      refine ⟨Cloud.freshId_ne_empty _, ?_⟩
      intro k hk heq
      have := Cloud.freshId_inj heq
      omega

/-- Deletion of a group of the store: the answer and the new store. -/
theorem Cloud.delete_present (c : Cloud) (hwf : c.WF) (m0 : ec2.SecurityGroup)
    (hm : m0 ∈ c.handles) :
    Cloud.DeleteSecurityGroup m0 c =
      (none, { c with groups := c.groups.filter (fun g => !decide (g.SecurityGroup.Id = m0.Id)) }) := by
  have hid : m0.Id ≠ "" := (hwf.issued m0 hm).1
  have hdes : ∀ g, Cloud.designates m0 g = decide (g.SecurityGroup.Id = m0.Id) := by
    intro g
    simp [Cloud.designates, hid]
  have hany : c.groups.any (Cloud.designates m0) = true := by
    rw [List.any_eq_true]
    obtain ⟨g, hg, hgm⟩ := List.mem_map.mp hm
    exact ⟨g, hg, by simp [hdes, hgm]⟩
  have hfun : (fun g => !Cloud.designates m0 g) =
      (fun g : ec2.SecurityGroupInfo => !decide (g.SecurityGroup.Id = m0.Id)) := by
    funext g
    rw [hdes]
  simp only [Cloud.DeleteSecurityGroup, hany, if_true, hfun]

theorem Cloud.delete_handles (c : Cloud) (hwf : c.WF) (m0 : ec2.SecurityGroup)
    (hm : m0 ∈ c.handles) :
    (Cloud.DeleteSecurityGroup m0 c).2.handles =
      c.handles.filter (fun h => !decide (h.Id = m0.Id)) := by
  rw [Cloud.delete_present c hwf m0 hm]
  simp only [Cloud.handles, List.filter_map]
  rfl

theorem Cloud.delete_nextId (c : Cloud) (hwf : c.WF) (m0 : ec2.SecurityGroup)
    (hm : m0 ∈ c.handles) : (Cloud.DeleteSecurityGroup m0 c).2.nextId = c.nextId := by
  rw [Cloud.delete_present c hwf m0 hm]

theorem Cloud.delete_WF (c : Cloud) (hwf : c.WF) (m0 : ec2.SecurityGroup)
    (hm : m0 ∈ c.handles) : (Cloud.DeleteSecurityGroup m0 c).2.WF := by
  refine ⟨?_, ?_, ?_⟩
  · rw [Cloud.delete_handles c hwf m0 hm]
    exact hwf.names.sublist ((List.filter_sublist _).map _)
  · rw [Cloud.delete_handles c hwf m0 hm]
    exact hwf.ids.sublist ((List.filter_sublist _).map _)
  · intro h hh
    rw [Cloud.delete_handles c hwf m0 hm] at hh
    rw [Cloud.delete_nextId c hwf m0 hm]
    exact hwf.issued h (List.mem_of_mem_filter hh)

/-- Authorization changes neither the handles nor the id counter of the store. -/
theorem Cloud.authorize_handles (c : Cloud) (h : ec2.SecurityGroup) (perms : List ec2.IPPerm) :
    (Cloud.AuthorizeSecurityGroup h perms c).2.handles = c.handles ∧
    (Cloud.AuthorizeSecurityGroup h perms c).2.nextId = c.nextId := by
  unfold Cloud.AuthorizeSecurityGroup
  split
  · exact ⟨rfl, rfl⟩
  · split
    · exact ⟨rfl, rfl⟩
    · refine ⟨?_, rfl⟩
      simp only [Cloud.handles, List.map_map]
      apply List.map_congr_left
      intro x _
      simp only [Function.comp]
      split <;> rfl

/-- The name of a machine group is never the name of the environment group. -/
theorem environ.groupName_ne_machineGroupName (e : environ) (machineId : Int) :
    e.groupName ≠ e.machineGroupName machineId := by
  intro h
  have h2 := congrArg String.length h
  simp only [environ.machineGroupName, String.length_append] at h2
  have h3 : "-".length = 1 := by decide
  omega

/-- The loop of `setUpGroups` over the listing: each of the two handles keeps its name,
and is either the initial one, no listed group bearing that name, or a listed group of
that name. -/
theorem pickGroups_spec (gn mn : String) (hne : gn ≠ mn) :
    ∀ (groups : List ec2.SecurityGroupInfo) (acc : ec2.SecurityGroup × ec2.SecurityGroup),
      acc.1.Name = gn → acc.2.Name = mn →
      (pickGroups groups acc).1.Name = gn ∧ (pickGroups groups acc).2.Name = mn ∧
      (((pickGroups groups acc).1 = acc.1 ∧ ∀ g ∈ groups, g.Name ≠ gn) ∨
        ∃ g ∈ groups, g.Name = gn ∧ (pickGroups groups acc).1 = g.SecurityGroup) ∧
      (((pickGroups groups acc).2 = acc.2 ∧ ∀ g ∈ groups, g.Name ≠ mn) ∨
        ∃ g ∈ groups, g.Name = mn ∧ (pickGroups groups acc).2 = g.SecurityGroup) := by
  intro groups
  induction groups with
  | nil =>
    intro acc h1 h2
    simp [pickGroups, h1, h2]
  | cons g rest ih =>
    intro acc h1 h2
    have hstep : pickGroups (g :: rest) acc =
        pickGroups rest (if g.Name = acc.1.Name then (g.SecurityGroup, acc.2)
          else if g.Name = acc.2.Name then (acc.1, g.SecurityGroup) else acc) := by
      simp [pickGroups]
    rw [hstep]
    by_cases hg1 : g.Name = gn
    · have hg2 : g.Name ≠ mn := fun h => hne (hg1.symm.trans h)
      simp only [h1, hg1, if_true]
      obtain ⟨i1, i2, i3, i4⟩ := ih (g.SecurityGroup, acc.2) hg1 h2
      refine ⟨i1, i2, ?_, ?_⟩
      · right
        rcases i3 with ⟨h3, _⟩ | ⟨x, hx, hxn, hxe⟩
        · exact ⟨g, List.mem_cons_self _ _, hg1, h3⟩
        · exact ⟨x, List.mem_cons_of_mem _ hx, hxn, hxe⟩
      · rcases i4 with ⟨h4, hall⟩ | ⟨x, hx, hxn, hxe⟩
        · left
          refine ⟨h4, ?_⟩
          intro x hx
          rcases List.mem_cons.mp hx with hx | hx
          · exact hx ▸ hg2
          · exact hall x hx
        · exact Or.inr ⟨x, List.mem_cons_of_mem _ hx, hxn, hxe⟩
    · by_cases hg2 : g.Name = mn
      · have hne2 : ¬ mn = gn := fun h => hne h.symm
        simp only [h1, h2, hg2, hne2, if_true, if_false]
        obtain ⟨i1, i2, i3, i4⟩ := ih (acc.1, g.SecurityGroup) h1 hg2
        refine ⟨i1, i2, ?_, ?_⟩
        · rcases i3 with ⟨h3, hall⟩ | ⟨x, hx, hxn, hxe⟩
          · left
            refine ⟨h3, ?_⟩
            intro x hx
            rcases List.mem_cons.mp hx with hx | hx
            · exact hx ▸ hg1
            · exact hall x hx
          · exact Or.inr ⟨x, List.mem_cons_of_mem _ hx, hxn, hxe⟩
        · right
          rcases i4 with ⟨h4, _⟩ | ⟨x, hx, hxn, hxe⟩
          · exact ⟨g, List.mem_cons_self _ _, hg2, h4⟩
          · exact ⟨x, List.mem_cons_of_mem _ hx, hxn, hxe⟩
      · simp only [h1, h2, hg1, hg2, if_false]
        obtain ⟨i1, i2, i3, i4⟩ := ih acc h1 h2
        refine ⟨i1, i2, ?_, ?_⟩
        · rcases i3 with ⟨h3, hall⟩ | ⟨x, hx, hxn, hxe⟩
          · left
            refine ⟨h3, ?_⟩
            intro x hx
            rcases List.mem_cons.mp hx with hx | hx
            · exact hx ▸ hg1
            · exact hall x hx
          · exact Or.inr ⟨x, List.mem_cons_of_mem _ hx, hxn, hxe⟩
        · rcases i4 with ⟨h4, hall⟩ | ⟨x, hx, hxn, hxe⟩
          · left
            refine ⟨h4, ?_⟩
            intro x hx
            rcases List.mem_cons.mp hx with hx | hx
            · exact hx ▸ hg2
            · exact hall x hx
          · exact Or.inr ⟨x, List.mem_cons_of_mem _ hx, hxn, hxe⟩

/-- What `setUpGroups` picks from the listing of a well-formed store: for each of the two
names, the handle of the stored group of that name, or the bare name when the store has
no such group. -/
theorem pickGroups_cloud (c : Cloud) (e : environ) (machineId : Int) :
    (pickGroups (c.groups.filter (Cloud.passes (e.groupsFilter machineId)))
        ({ Name := e.groupName }, { Name := e.machineGroupName machineId })).1.Name =
      e.groupName ∧
    (pickGroups (c.groups.filter (Cloud.passes (e.groupsFilter machineId)))
        ({ Name := e.groupName }, { Name := e.machineGroupName machineId })).2.Name =
      e.machineGroupName machineId ∧
    ((pickGroups (c.groups.filter (Cloud.passes (e.groupsFilter machineId)))
        ({ Name := e.groupName }, { Name := e.machineGroupName machineId })).1 ∈ c.handles ∨
      ((pickGroups (c.groups.filter (Cloud.passes (e.groupsFilter machineId)))
        ({ Name := e.groupName }, { Name := e.machineGroupName machineId })).1.Id = "" ∧
        ∀ h ∈ c.handles, h.Name ≠ e.groupName)) ∧
    ((pickGroups (c.groups.filter (Cloud.passes (e.groupsFilter machineId)))
        ({ Name := e.groupName }, { Name := e.machineGroupName machineId })).2 ∈ c.handles ∨
      ((pickGroups (c.groups.filter (Cloud.passes (e.groupsFilter machineId)))
        ({ Name := e.groupName }, { Name := e.machineGroupName machineId })).2.Id = "" ∧
        ∀ h ∈ c.handles, h.Name ≠ e.machineGroupName machineId)) := by
  have hpass : ∀ g : ec2.SecurityGroupInfo, Cloud.passes (e.groupsFilter machineId) g = true ↔
      (g.Name = e.groupName ∨ g.Name = e.machineGroupName machineId) := by
    intro g
    simp [Cloud.passes, environ.groupsFilter, ec2.Filter.Add, ec2.NewFilter]
  obtain ⟨i1, i2, i3, i4⟩ := pickGroups_spec e.groupName (e.machineGroupName machineId)
    (e.groupName_ne_machineGroupName machineId)
    (c.groups.filter (Cloud.passes (e.groupsFilter machineId)))
    ({ Name := e.groupName }, { Name := e.machineGroupName machineId }) rfl rfl
  refine ⟨i1, i2, ?_, ?_⟩
  · rcases i3 with ⟨h3, hall⟩ | ⟨x, hx, _, hxe⟩
    · right
      refine ⟨by rw [h3], ?_⟩
      intro h hh hn
      obtain ⟨g, hg, hgh⟩ := List.mem_map.mp hh
      have hgn : g.Name = e.groupName := by rw [← hn, ← hgh]; rfl
      exact hall g (List.mem_filter.mpr ⟨hg, (hpass g).mpr (Or.inl hgn)⟩) hgn
    · left
      rw [hxe]
      exact List.mem_map_of_mem _ (List.mem_of_mem_filter hx)
  · rcases i4 with ⟨h4, hall⟩ | ⟨x, hx, _, hxe⟩
    · right
      refine ⟨by rw [h4], ?_⟩
      intro h hh hn
      obtain ⟨g, hg, hgh⟩ := List.mem_map.mp hh
      have hgn : g.Name = e.machineGroupName machineId := by rw [← hn, ← hgh]; rfl
      exact hall g (List.mem_filter.mpr ⟨hg, (hpass g).mpr (Or.inr hgn)⟩) hgn
    · left
      rw [hxe]
      exact List.mem_map_of_mem _ (List.mem_of_mem_filter hx)

/-- The loop of `attempt` keeps every property of the outside state that the operation keeps. -/
theorem attemptLoop_keeps (Q : σ → Prop) (code : String)
    (f : World σ → Option GoError × World σ) (hf : ∀ v, Q v.st → Q (f v).2.st) :
    ∀ (left i : Nat) (err : Option GoError) (w : World σ),
      Q w.st → Q (attemptLoop code f left i err w).2.st := by
  intro left
  induction left with
  | zero =>
    intro i err w h
    simpa [attemptLoop, World.emit] using h
  | succ left ih =>
    intro i err w h
    have hbody : Q (f ((f (w.emit (.Printf "attempt %d" (toString i)))).2.emit
          (.Printf "error: %v" (fmtErr (f (w.emit (.Printf "attempt %d" (toString i)))).1)))).2.st :=
      hf _ (hf _ h)
    unfold attemptLoop
    simp only
    split
    · split
      · exact hbody
      · exact ih _ _ _ hbody
    · exact hbody

/-- The loop of `attempt` only appends to the trace when the operation only appends. -/
theorem attemptLoop_appends (code : String) (f : World σ → Option GoError × World σ)
    (hf : ∀ v, v.trace <+: (f v).2.trace) :
    ∀ (left i : Nat) (err : Option GoError) (w : World σ),
      w.trace <+: (attemptLoop code f left i err w).2.trace := by
  intro left
  induction left with
  | zero =>
    intro i err w
    simp [attemptLoop, World.emit]
  | succ left ih =>
    intro i err w
    have hemit : ∀ (v : World σ) (ev : Event), v.trace <+: (v.emit ev).trace :=
      fun v ev => List.prefix_append _ _
    have hbody : w.trace <+:
        (f ((f (w.emit (.Printf "attempt %d" (toString i)))).2.emit
          (.Printf "error: %v" (fmtErr (f (w.emit (.Printf "attempt %d" (toString i)))).1)))).2.trace :=
      (((hemit w _).trans (hf _)).trans (hemit _ _)).trans (hf _)
    unfold attemptLoop
    simp only
    split
    · split
      · exact hbody
      · exact (hbody.trans (hemit _ _)).trans (ih _ _ _)
    · exact hbody

/-- Well-formedness only depends on the handles and the id counter of the store. -/
theorem Cloud.WF.of_same {c c2 : Cloud} (hwf : c.WF) (hh : c2.handles = c.handles)
    (hn : c2.nextId = c.nextId) : c2.WF :=
  ⟨hh ▸ hwf.names, hh ▸ hwf.ids, fun h hm => by
    rw [hh] at hm
    rw [hn]
    exact hwf.issued h hm⟩

/-- A handle whose id differs from the id deleted stays among the handles. -/
theorem mem_filter_id {l : List ec2.SecurityGroup} {x m0 : ec2.SecurityGroup} (hx : x ∈ l)
    (hne : x.Id ≠ m0.Id) : x ∈ l.filter (fun h => !decide (h.Id = m0.Id)) :=
  List.mem_filter.mpr ⟨hx, by simp [hne]⟩

/-- The second half of `setUpGroups` on a well-formed store, for a machine handle that is
either a stored group or a bare name that no stored group bears: the old group, if any,
is deleted, a group with a fresh id and no rule is created, and both calls are issued in
this order. -/
theorem setUpMachineGroup_cloud (e : environ) (machineId : Int) (jg m0 : ec2.SecurityGroup)
    (w : World Cloud) (hwf : w.st.WF) (hname : m0.Name = e.machineGroupName machineId)
    (hcase : m0 ∈ w.st.handles ∨
      (m0.Id = "" ∧ ∀ h ∈ w.st.handles, h.Name ≠ e.machineGroupName machineId)) :
    ∃ w2, setUpMachineGroup cloud e machineId jg m0 w =
        (.ok [jg, { Id := Cloud.freshId w.st.nextId, Name := e.machineGroupName machineId }], w2) ∧
      w2.st.WF ∧
      w2.st.handles = w.st.handles.filter (fun h => !decide (h.Id = m0.Id)) ++
        [{ Id := Cloud.freshId w.st.nextId, Name := e.machineGroupName machineId }] ∧
      w2.trace = w.trace ++ (if m0.Id ≠ "" then [Event.DeleteSecurityGroup m0] else []) ++
        [Event.CreateSecurityGroup (e.machineGroupName machineId) (e.machineDescr machineId)] ∧
      (∀ g ∈ w2.st.groups, g.Name = e.machineGroupName machineId → g.IPPerms = []) := by
  have hcloudD : cloud.DeleteSecurityGroup = Cloud.DeleteSecurityGroup := rfl
  have hcloudC : cloud.CreateSecurityGroup = Cloud.CreateSecurityGroup := rfl
  rcases hcase with hm | ⟨hid, hno⟩
  · have hid : m0.Id ≠ "" := (hwf.issued m0 hm).1
    have hwf1 := Cloud.delete_WF w.st hwf m0 hm
    have hh1 := Cloud.delete_handles w.st hwf m0 hm
    have hn1 := Cloud.delete_nextId w.st hwf m0 hm
    have hd1 : (Cloud.DeleteSecurityGroup m0 w.st).1 = none := by
      rw [Cloud.delete_present w.st hwf m0 hm]
    have hno1 : ∀ h ∈ (Cloud.DeleteSecurityGroup m0 w.st).2.handles,
        h.Name ≠ e.machineGroupName machineId := by
      intro h hh hn
      rw [hh1] at hh
      have hmem := List.mem_of_mem_filter hh
      have heq : h = m0 := hwf.same_name hmem hm (hn.trans hname.symm)
      have := (List.mem_filter.mp hh).2
      simp [heq] at this
    have hc1 := Cloud.create_free (Cloud.DeleteSecurityGroup m0 w.st).2
      (e.machineGroupName machineId) (e.machineDescr machineId) hno1
    refine ⟨⟨(Cloud.CreateSecurityGroup (e.machineGroupName machineId) (e.machineDescr machineId)
        (Cloud.DeleteSecurityGroup m0 w.st).2).2,
      w.trace ++ [Event.DeleteSecurityGroup m0] ++
        [Event.CreateSecurityGroup (e.machineGroupName machineId) (e.machineDescr machineId)]⟩,
      ?_, ?_, ?_, ?_, ?_⟩
    · simp only [setUpMachineGroup, World.call, hcloudD, hcloudC, hid, ne_eq, not_false_eq_true,
        if_true, hd1, hname]
      rw [hc1, hn1]
    · exact Cloud.create_WF _ _ _ hwf1 hno1
    · show (Cloud.CreateSecurityGroup _ _ _).2.handles = _
      rw [Cloud.create_handles _ _ _ hno1, hh1, hn1]
    · simp [hid]
    · intro g hg hgn
      change g ∈ (Cloud.CreateSecurityGroup _ _ _).2.groups at hg
      rw [hc1] at hg
      rcases List.mem_append.mp hg with hg | hg
      · exact absurd hgn (hno1 g.SecurityGroup (List.mem_map_of_mem _ hg))
      · simp only [List.mem_singleton] at hg
        rw [hg]
  · have hc1 := Cloud.create_free w.st (e.machineGroupName machineId)
      (e.machineDescr machineId) hno
    refine ⟨⟨(Cloud.CreateSecurityGroup (e.machineGroupName machineId) (e.machineDescr machineId)
        w.st).2,
      w.trace ++
        [Event.CreateSecurityGroup (e.machineGroupName machineId) (e.machineDescr machineId)]⟩,
      ?_, ?_, ?_, ?_, ?_⟩
    · simp only [setUpMachineGroup, World.call, hcloudC, hid, ne_eq, not_true_eq_false,
        if_false, hname]
      rw [hc1]
    · exact Cloud.create_WF _ _ _ hwf hno
    · show (Cloud.CreateSecurityGroup _ _ _).2.handles = _
      rw [Cloud.create_handles _ _ _ hno]
      congr 1
      symm
      rw [List.filter_eq_self]
      intro h hh
      have := (hwf.issued h hh).1
      simp [hid, this]
    · simp [hid]
    · intro g hg hgn
      change g ∈ (Cloud.CreateSecurityGroup _ _ _).2.groups at hg
      rw [hc1] at hg
      rcases List.mem_append.mp hg with hg | hg
      · exact absurd hgn (hno g.SecurityGroup (List.mem_map_of_mem _ hg))
      · simp only [List.mem_singleton] at hg
        rw [hg]

/-- In a list of handles with unique names, the handles bearing the name of a member are
that member alone. -/
theorem filter_name_eq (l : List ec2.SecurityGroup) (hnd : (l.map (fun h => h.Name)).Nodup)
    (x : ec2.SecurityGroup) (hx : x ∈ l) :
    l.filter (fun h => decide (h.Name = x.Name)) = [x] := by
  induction l with
  | nil => cases hx
  | cons a l ih =>
    simp only [List.map_cons, List.nodup_cons] at hnd
    rcases List.mem_cons.mp hx with hxa | hxl
    · subst hxa
      have hnil : l.filter (fun h => decide (h.Name = x.Name)) = [] := by
        rw [List.filter_eq_nil_iff]
        intro y hy hyn
        exact hnd.1 (List.mem_map.mpr ⟨y, hy, by simpa using hyn⟩)
      simp [List.filter_cons, hnil]
    · have hne : a.Name ≠ x.Name := by
        intro h
        exact hnd.1 (List.mem_map.mpr ⟨x, hxl, h.symm⟩)
      simp [List.filter_cons, hne, ih hnd.2 hxl]

/-- One successful `setUpGroups` on a well-formed store: it returns the environment group
and the machine group, both in the store afterwards; the environment group was created
by this call when the store had none; and when the store held both groups before, the
environment group is the stored one and the call has issued exactly the listing, the
deletion of the stored machine group and the creation of a new one. -/
theorem setUpGroups_cloud (e : environ) (machineId : Int) (w w1 : World Cloud)
    (gs : List ec2.SecurityGroup) (hwf : w.st.WF)
    (h : setUpGroups cloud e machineId w = (.ok gs, w1)) :
    ∃ jg mg, gs = [jg, mg] ∧ w1.st.WF ∧ jg ∈ w1.st.handles ∧ mg ∈ w1.st.handles ∧
      jg.Name = e.groupName ∧ mg.Name = e.machineGroupName machineId ∧
      (∀ g ∈ w1.st.groups, g.Name = e.machineGroupName machineId → g.IPPerms = []) ∧
      ((∀ x ∈ w.st.handles, x.Name ≠ e.groupName) →
        Event.CreateSecurityGroup e.groupName ("juju group for " ++ e.name) ∈ w1.trace) ∧
      (∀ jg0 mg0, jg0 ∈ w.st.handles → jg0.Name = e.groupName → mg0 ∈ w.st.handles →
        mg0.Name = e.machineGroupName machineId →
        jg = jg0 ∧
        mg = { Id := Cloud.freshId w.st.nextId, Name := e.machineGroupName machineId } ∧
        w1.st.handles = w.st.handles.filter (fun x => !decide (x.Id = mg0.Id)) ++ [mg] ∧
        w1.trace = w.trace ++ [Event.SecurityGroups (e.groupsFilter machineId),
          Event.DeleteSecurityGroup mg0,
          Event.CreateSecurityGroup (e.machineGroupName machineId) (e.machineDescr machineId)]) := by
  have hcloudL : cloud.SecurityGroups = Cloud.SecurityGroups := rfl
  have hcloudC : cloud.CreateSecurityGroup = Cloud.CreateSecurityGroup := rfl
  have hcloudA : cloud.AuthorizeSecurityGroup = Cloud.AuthorizeSecurityGroup := rfl
  have hgm := e.groupName_ne_machineGroupName machineId
  obtain ⟨p1, p2, p3, p4⟩ := pickGroups_cloud w.st e machineId
  unfold setUpGroups at h
  simp only [World.call, hcloudL, Cloud.SecurityGroups] at h
  generalize pickGroups (w.st.groups.filter (Cloud.passes (e.groupsFilter machineId)))
    ({ Name := e.groupName }, { Name := e.machineGroupName machineId }) = picked at p1 p2 p3 p4 h
  by_cases hid : picked.1.Id = ""
  · have hno : ∀ x ∈ w.st.handles, x.Name ≠ e.groupName := by
      rcases p3 with p3 | p3
      · exact absurd hid (hwf.issued _ p3).1
      · exact p3.2
    have hc1 := Cloud.create_free w.st e.groupName ("juju group for " ++ e.name) hno
    simp only [hid, if_true, World.emit, hcloudC, p1, hc1] at h
    split at h
    · simp at h
    · rename_i w5 hatt
      have hatt2 : w5 = (attempt "InvalidGroup.NotFound" (fun v =>
          v.call (.AuthorizeSecurityGroup { Id := Cloud.freshId w.st.nextId, Name := e.groupName }
            jujuGroupPerms)
            (cloud.AuthorizeSecurityGroup { Id := Cloud.freshId w.st.nextId, Name := e.groupName }
              jujuGroupPerms))
          ⟨(Cloud.CreateSecurityGroup e.groupName ("juju group for " ++ e.name) w.st).2,
            w.trace ++ [Event.SecurityGroups (e.groupsFilter machineId)] ++
              [Event.Printf "creating security group %q" e.groupName.quote] ++
              [Event.CreateSecurityGroup e.groupName ("juju group for " ++ e.name)] ++
              [Event.Printf "authorizing security group %v"
                (fmtGroup { Id := Cloud.freshId w.st.nextId, Name := e.groupName })]⟩).2 := by
        rw [hc1]
        exact (congrArg Prod.snd hatt).symm
      have hkeep := attemptLoop_keeps
        (fun c : Cloud =>
          c.handles = (Cloud.CreateSecurityGroup e.groupName ("juju group for " ++ e.name)
            w.st).2.handles ∧
          c.nextId = (Cloud.CreateSecurityGroup e.groupName ("juju group for " ++ e.name)
            w.st).2.nextId)
        "InvalidGroup.NotFound" (fun v =>
          v.call (.AuthorizeSecurityGroup { Id := Cloud.freshId w.st.nextId, Name := e.groupName }
            jujuGroupPerms)
            (cloud.AuthorizeSecurityGroup { Id := Cloud.freshId w.st.nextId, Name := e.groupName }
              jujuGroupPerms))
        (fun v hv => by
          have := Cloud.authorize_handles v.st
            { Id := Cloud.freshId w.st.nextId, Name := e.groupName } jujuGroupPerms
          simp only [World.call, hcloudA]
          exact ⟨this.1.trans hv.1, this.2.trans hv.2⟩)
        20 0 none
        ⟨(Cloud.CreateSecurityGroup e.groupName ("juju group for " ++ e.name) w.st).2,
            w.trace ++ [Event.SecurityGroups (e.groupsFilter machineId)] ++
              [Event.Printf "creating security group %q" e.groupName.quote] ++
              [Event.CreateSecurityGroup e.groupName ("juju group for " ++ e.name)] ++
              [Event.Printf "authorizing security group %v"
                (fmtGroup { Id := Cloud.freshId w.st.nextId, Name := e.groupName })]⟩
        ⟨rfl, rfl⟩
      have happ := attemptLoop_appends "InvalidGroup.NotFound" (fun v =>
          v.call (.AuthorizeSecurityGroup { Id := Cloud.freshId w.st.nextId, Name := e.groupName }
            jujuGroupPerms)
            (cloud.AuthorizeSecurityGroup { Id := Cloud.freshId w.st.nextId, Name := e.groupName }
              jujuGroupPerms))
        (fun v => by simp [World.call])
        20 0 none
        ⟨(Cloud.CreateSecurityGroup e.groupName ("juju group for " ++ e.name) w.st).2,
            w.trace ++ [Event.SecurityGroups (e.groupsFilter machineId)] ++
              [Event.Printf "creating security group %q" e.groupName.quote] ++
              [Event.CreateSecurityGroup e.groupName ("juju group for " ++ e.name)] ++
              [Event.Printf "authorizing security group %v"
                (fmtGroup { Id := Cloud.freshId w.st.nextId, Name := e.groupName })]⟩
      change _ ∧ _ at hkeep
      rw [show attemptLoop "InvalidGroup.NotFound" _ 20 0 none _ = attempt "InvalidGroup.NotFound" _ _
        from rfl, ← hatt2] at hkeep happ
      obtain ⟨hh5, hn5⟩ := hkeep
      rw [Cloud.create_handles _ _ _ hno] at hh5
      rw [Cloud.create_nextId _ _ _ hno] at hn5
      have hwf5 : w5.st.WF :=
        (Cloud.create_WF w.st e.groupName ("juju group for " ++ e.name) hwf hno).of_same
          (by rw [hh5, Cloud.create_handles _ _ _ hno]) (by rw [hn5, Cloud.create_nextId _ _ _ hno])
      have hcase5 : picked.2 ∈ w5.st.handles ∨
          (picked.2.Id = "" ∧ ∀ x ∈ w5.st.handles, x.Name ≠ e.machineGroupName machineId) := by
        rcases p4 with p4 | ⟨p4a, p4b⟩
        · left
          rw [hh5]
          exact List.mem_append_left _ p4
        · right
          refine ⟨p4a, ?_⟩
          intro x hx
          rw [hh5] at hx
          rcases List.mem_append.mp hx with hx | hx
          · exact p4b x hx
          · simp only [List.mem_singleton] at hx
            rw [hx]
            exact hgm
      obtain ⟨w2, hm1, hm2, hm3, hm4, hm5⟩ := setUpMachineGroup_cloud e machineId
        { Id := Cloud.freshId w.st.nextId, Name := e.groupName } picked.2 w5 hwf5 p2 hcase5
      rw [hm1] at h
      simp only [Prod.mk.injEq, Except.ok.injEq] at h
      obtain ⟨hgs, hw⟩ := h
      subst hw
      refine ⟨_, _, hgs.symm, hm2, ?_, ?_, rfl, rfl, hm5, ?_, ?_⟩
      · rw [hm3]
        apply List.mem_append_left
        apply mem_filter_id
        · rw [hh5]
          exact List.mem_append_right _ (List.mem_singleton_self _)
        · rcases p4 with p4 | ⟨p4a, _⟩
          · exact fun heq => (hwf.issued _ p4).2 _ (le_refl _) heq.symm
          · rw [p4a]
            exact Cloud.freshId_ne_empty _
      · rw [hm3]
        exact List.mem_append_right _ (List.mem_singleton_self _)
      · intro _
        rw [hm4]
        apply List.mem_append_left
        apply List.mem_append_left
        apply happ.subset
        simp
      · intro jg0 _ hj0 hjn _ _
        exact absurd hjn (hno jg0 hj0)
  · have hmem : picked.1 ∈ w.st.handles := by
      rcases p3 with p3 | p3
      · exact p3
      · exact absurd p3.1 hid
    simp only [hid, if_false] at h
    obtain ⟨w2, hm1, hm2, hm3, hm4, hm5⟩ := setUpMachineGroup_cloud e machineId picked.1 picked.2
      ⟨w.st, w.trace ++ [Event.SecurityGroups (e.groupsFilter machineId)]⟩ hwf p2 p4
    rw [hm1] at h
    simp only [Prod.mk.injEq, Except.ok.injEq] at h
    obtain ⟨hgs, hw⟩ := h
    subst hw
    refine ⟨_, _, hgs.symm, hm2, ?_, ?_, p1, rfl, hm5, ?_, ?_⟩
    · rw [hm3]
      apply List.mem_append_left
      apply mem_filter_id hmem
      rcases p4 with p4 | ⟨p4a, _⟩
      · intro heq
        have := hwf.same_id hmem p4 heq
        exact hgm (p1.symm.trans ((congrArg (fun x => x.Name) this).trans p2))
      · rw [p4a]
        exact hid
    · rw [hm3]
      exact List.mem_append_right _ (List.mem_singleton_self _)
    · intro hnone
      exact absurd p1 (hnone _ hmem)
    · intro jg0 mg0 hj0 hjn hm0 hmn
      have hj : picked.1 = jg0 := hwf.same_name hmem hj0 (p1.trans hjn.symm)
      have hm : picked.2 = mg0 := by
        rcases p4 with p4 | ⟨_, p4b⟩
        · exact hwf.same_name p4 hm0 (p2.trans hmn.symm)
        · exact absurd hmn (p4b mg0 hm0)
      refine ⟨hj, rfl, ?_, ?_⟩
      · rw [hm3, hm]
      · rw [hm4, hm]
        have : mg0.Id ≠ "" := (hwf.issued mg0 hm0).1
        simp [this]

theorem Cloud.empty_WF : Cloud.empty.WF :=
  ⟨by simp [Cloud.handles, Cloud.empty], by simp [Cloud.handles, Cloud.empty],
    by simp [Cloud.handles, Cloud.empty]⟩

/-- C6: over the reference cloud, whose group store reflects creations and deletions at
once, from any well-formed store: when two `setUpGroups` calls in a row for the same
environment and machine id both succeed, both return the same environment group `jg`
(same id) first, and then their machine group; the second call has issued exactly a
listing, the deletion of the first call's machine group `mg1` and the creation of a
machine group (no `CreateSecurityGroup` for the environment group and no
`AuthorizeSecurityGroup`); afterwards the store holds exactly one group named
`groupName()`, namely `jg`, exactly one group named `machineGroupName(machineId)`, namely
the `mg2` returned by the second call, which has a new id and no rule, and no group with
the id of `mg1`. When the store had no environment group at the start, `jg` was created
by the first call. -/
theorem setUpGroups_twice (e : environ) (machineId : Int) (w w1 w2 : World Cloud)
    (gs1 gs2 : List ec2.SecurityGroup) (hwf : w.st.WF)
    (h1 : setUpGroups cloud e machineId w = (.ok gs1, w1))
    (h2 : setUpGroups cloud e machineId w1 = (.ok gs2, w2)) :
    ∃ jg mg1 mg2, gs1 = [jg, mg1] ∧ gs2 = [jg, mg2] ∧
      jg.Name = e.groupName ∧
      mg1.Name = e.machineGroupName machineId ∧
      mg2.Name = e.machineGroupName machineId ∧
      mg2.Id ≠ mg1.Id ∧
      w2.st.handles.filter (fun h => decide (h.Name = e.groupName)) = [jg] ∧
      w2.st.handles.filter (fun h => decide (h.Name = e.machineGroupName machineId)) = [mg2] ∧
      (∀ h ∈ w2.st.handles, h.Id ≠ mg1.Id) ∧
      (∀ g ∈ w2.st.groups, g.Name = e.machineGroupName machineId → g.IPPerms = []) ∧
      w2.trace = w1.trace ++ [Event.SecurityGroups (e.groupsFilter machineId),
        Event.DeleteSecurityGroup mg1,
        Event.CreateSecurityGroup (e.machineGroupName machineId) (e.machineDescr machineId)] ∧
      ((∀ x ∈ w.st.handles, x.Name ≠ e.groupName) →
        Event.CreateSecurityGroup e.groupName ("juju group for " ++ e.name) ∈ w1.trace) := by
  obtain ⟨jg, mg1, hgs1, hwf1, hj1, hm1, hjn, hmn, _, hcreated, _⟩ :=
    setUpGroups_cloud e machineId w w1 gs1 hwf h1
  obtain ⟨jg2, mg2, hgs2, hwf2, hj2, hm2, hjn2, hmn2, hrules, _, hboth⟩ :=
    setUpGroups_cloud e machineId w1 w2 gs2 hwf1 h2
  obtain ⟨hsame, hfresh, hhandles, htrace⟩ := hboth jg mg1 hj1 hjn hm1 hmn
  subst hsame
  have hid : mg2.Id ≠ mg1.Id := by
    rw [hfresh]
    exact fun heq => (hwf1.issued mg1 hm1).2 _ (le_refl _) heq.symm
  refine ⟨jg2, mg1, mg2, hgs1, hgs2, hjn, hmn, hmn2, hid, ?_, ?_, ?_, hrules, htrace, hcreated⟩
  · rw [← hjn]
    exact filter_name_eq _ hwf2.names jg2 hj2
  · rw [← hmn2]
    exact filter_name_eq _ hwf2.names mg2 hm2
  · intro h hh
    rw [hhandles] at hh
    rcases List.mem_append.mp hh with hh | hh
    · simpa using (List.mem_filter.mp hh).2
    · simp only [List.mem_singleton] at hh
      rw [hh]
      exact hid

theorem setUpGroups_twice_witness :
    ∃ jg mg1 mg2,
      [({ Id := "sg-i", Name := "juju-test1" } : ec2.SecurityGroup),
        { Id := "sg-ii", Name := "juju-test1-0" }] = [jg, mg1] ∧
      [({ Id := "sg-i", Name := "juju-test1" } : ec2.SecurityGroup),
        { Id := "sg-iii", Name := "juju-test1-0" }] = [jg, mg2] ∧
      jg.Name = test1.groupName ∧
      mg1.Name = test1.machineGroupName 0 ∧
      mg2.Name = test1.machineGroupName 0 ∧
      mg2.Id ≠ mg1.Id ∧
      (setUpGroups cloud test1 0 (setUpGroups cloud test1 0 ⟨Cloud.empty, []⟩).2).2.st.handles.filter
        (fun h => decide (h.Name = test1.groupName)) = [jg] ∧
      (setUpGroups cloud test1 0 (setUpGroups cloud test1 0 ⟨Cloud.empty, []⟩).2).2.st.handles.filter
        (fun h => decide (h.Name = test1.machineGroupName 0)) = [mg2] ∧
      (∀ h ∈ (setUpGroups cloud test1 0
          (setUpGroups cloud test1 0 ⟨Cloud.empty, []⟩).2).2.st.handles, h.Id ≠ mg1.Id) ∧
      (∀ g ∈ (setUpGroups cloud test1 0
          (setUpGroups cloud test1 0 ⟨Cloud.empty, []⟩).2).2.st.groups,
        g.Name = test1.machineGroupName 0 → g.IPPerms = []) ∧
      (setUpGroups cloud test1 0 (setUpGroups cloud test1 0 ⟨Cloud.empty, []⟩).2).2.trace =
        (setUpGroups cloud test1 0 ⟨Cloud.empty, []⟩).2.trace ++
          [Event.SecurityGroups (test1.groupsFilter 0),
            Event.DeleteSecurityGroup mg1,
            Event.CreateSecurityGroup (test1.machineGroupName 0) (test1.machineDescr 0)] ∧
      ((∀ x ∈ Cloud.empty.handles, x.Name ≠ test1.groupName) →
        Event.CreateSecurityGroup test1.groupName ("juju group for " ++ test1.name) ∈
          (setUpGroups cloud test1 0 ⟨Cloud.empty, []⟩).2.trace) :=
  setUpGroups_twice test1 0 ⟨Cloud.empty, []⟩ _ _ _ _ Cloud.empty_WF rfl rfl

end Juju

